import Mathlib

/-!
# squirrel: DELETE statement rendering, builder mutators and runner dispatch

A shallow embedding of `delete.go` and `update_ctx.go`, and of the INSERT statement as
the tests of `insert_test.go` use it.

Conventions of the embedding.

* A Go string is a Lean `String`; a `bytes.Buffer` is the `String` written so far.
* A Go slice is the `List` of its elements; the nil slice and the empty slice are both `[]`.
* A Go interface value that may be nil is an `Option`; `none` is nil.
* A function with several results returns a tuple, in the order of the Go results;
  an `error` result is an `Option error`, `none` being the nil error.
* A run-time panic (here: a method call on a nil interface) is the outcome `none`
  of a function whose result type is an outer `Option`.
* A method with a pointer receiver is a function on a store of builders, the receiver
  being an address of that store.
* Where the question is what a second call returns, a collaborator behind an interface is
  a function of a state outside the record, which its call may change (`stateful.*`).
-/

namespace squirrel

/-! ## Values and errors -/

/-- A bound argument of a statement (an `interface{}` in the source). -/
inductive Value
  | null
  | int (n : Int)
  | str (s : String)
  | bool (b : Bool)
  deriving DecidableEq, Repr

/-- The `error` values that occur: `deleteNoFrom`, which `deleteData.ToSql` creates with
`fmt.Errorf("delete statements must specify a From table")`, the three package-level
runner errors, and errors created by collaborators (expressions, placeholder formats,
runners), told apart by their message. -/
inductive error
  | deleteNoFrom
  | RunnerNotSet
  | RunnerNotQueryRunner
  | NoContextSupport
  | other (msg : String)
  deriving DecidableEq, Repr

/-! ## Collaborators of the renderer -/

/-- Modelled from the spec: the `Sqlizer` interface (its declaration is not among the
files at hand). An expression has the single capability of rendering itself to SQL text,
bound arguments and an error; the renderer is a pure function, so the capability is the
triple it returns. -/
structure Sqlizer where
  ToSql : String × List Value × Option error

/-- Modelled from the spec: the raw fragment `expr` (its declaration is not among the
files at hand): a literal SQL string together with its ordered argument list. -/
structure expr where
  sql : String
  args : List Value
  deriving DecidableEq, Repr

/-- Modelled from the spec: the constructor `Expr` of a raw fragment, which keeps the
string and the arguments verbatim. -/
def Expr (sql : String) (args : List Value) : expr :=
  { sql := sql, args := args }

/-- Modelled from the spec: the loop of `exprs.AppendToSql` (not among the files at
hand). Each fragment's SQL is appended to the buffer verbatim, the separator being
written before every fragment but the first, and its arguments are appended to the
arguments collected so far. -/
def exprs.AppendToSql.go (sep : String) : Nat → List expr → String → List Value → String × List Value
  | _, [], w, args => (w, args)
  | i, e :: es, w, args =>
    exprs.AppendToSql.go sep (i + 1) es ((if i > 0 then w ++ sep else w) ++ e.sql) (args ++ e.args)

/-- Modelled from the spec: `exprs.AppendToSql(w, sep, args)`: the buffer after the
writes, the new argument list, and the (nil) error. -/
def exprs.AppendToSql (es : List expr) (w : String) (sep : String) (args : List Value) :
    String × List Value × Option error :=
  ((exprs.AppendToSql.go sep 0 es w args).1, (exprs.AppendToSql.go sep 0 es w args).2, none)

/-- Modelled from the spec: the loop of `appendToSql` over expressions (not among the
files at hand). Each part is rendered; the first error stops the loop and is returned
with no arguments; otherwise the part's SQL is appended, separated from the previous
part by the separator, and its arguments are appended to those collected so far. -/
def appendToSql.go (sep : String) : Nat → List Sqlizer → String → List Value →
    String × List Value × Option error
  | _, [], w, args => (w, args, none)
  | i, p :: ps, w, args =>
    match p.ToSql.2.2 with
    | some err => (w, [], some err)
    | none =>
      appendToSql.go sep (i + 1) ps ((if i > 0 then w ++ sep else w) ++ p.ToSql.1)
        (args ++ p.ToSql.2.1)

/-- Modelled from the spec: `appendToSql(parts, w, sep, args)`: the buffer after the
writes, the new argument list, and the error. -/
def appendToSql (parts : List Sqlizer) (w : String) (sep : String) (args : List Value) :
    String × List Value × Option error :=
  appendToSql.go sep 0 parts w args

/-- Modelled from the spec: the `PlaceholderFormat` interface (its declaration is not
among the files at hand), with its single operation rewriting a SQL text. -/
structure PlaceholderFormat where
  ReplacePlaceholders : String → String × Option error

/-- Modelled from the spec: the sequential format `Question`, which passes the text
through with every marker kept. -/
def Question : PlaceholderFormat :=
  { ReplacePlaceholders := fun sql => (sql, none) }

/-- The scan of the numbered format: the marker met when `i` markers have been replaced
becomes `$` followed by `i + 1`; every other character is kept. -/
def Dollar.go : Nat → List Char → List Char
  | _, [] => []
  | i, c :: cs =>
    if c = '?' then ('$' :: (toString (i + 1)).data) ++ Dollar.go (i + 1) cs
    else c :: Dollar.go i cs

/-- Modelled from the spec: the numbered format `Dollar`, a single pass replacing each
marker by `$` followed by an incrementing 1-based integer. -/
def Dollar : PlaceholderFormat :=
  { ReplacePlaceholders := fun sql => (String.mk (Dollar.go 0 sql.data), none) }

/-- The number of neutral placeholder markers `?` in a text. -/
def markers (s : String) : Nat :=
  s.data.count '?'

/-- The standard library's `strings.Join(elems, sep)`. -/
def strings.Join : List String → String → String
  | [], _ => ""
  | [a], _ => a
  | a :: b :: rest, sep => a ++ sep ++ strings.Join (b :: rest) sep

/-- The standard library's `fmt.Sprintf("%d", n)` for an unsigned `n`. -/
def fmt.Sprintf_d (n : Nat) : String :=
  toString n

/-- A runner (`BaseRunner`): the identity of the value and which of the context-aware
interfaces its dynamic type implements, which is what the type assertions
`d.RunWith.(ExecerContext)`, `.(QueryerContext)` and `.(QueryRowerContext)` test. -/
structure BaseRunner where
  id : Nat
  ExecerContext : Bool
  QueryerContext : Bool
  QueryRowerContext : Bool
  deriving DecidableEq, Repr

/-! ## `delete.go` -/

/-- The record `deleteData` (delete.go, lines 12-22). -/
structure deleteData where
  PlaceholderFormat : Option PlaceholderFormat
  RunWith : Option BaseRunner
  Prefixes : List expr
  From : String
  WhereParts : List Sqlizer
  OrderBys : List String
  Limit : String
  Offset : String
  Suffixes : List expr

/-- `deleteData.ToSql` (delete.go, lines 31-77). The result is `none` when the call
panics (a nil `PlaceholderFormat` at line 75), and otherwise the triple of the named
results `(sqlStr, args, err)` as they stand at the `return` reached. -/
def deleteData.ToSql (d : deleteData) : Option (String × List Value × Option error) :=
  if d.From.length = 0 then
    some ("", [], some error.deleteNoFrom)
  else
    let pre : String × List Value :=
      if d.Prefixes.length > 0 then
        ((exprs.AppendToSql d.Prefixes "" " " []).1 ++ " ",
          (exprs.AppendToSql d.Prefixes "" " " []).2.1)
      else ("", [])
    let sql1 := pre.1 ++ "DELETE FROM " ++ d.From
    let wh : String × List Value × Option error :=
      if d.WhereParts.length > 0 then
        appendToSql d.WhereParts (sql1 ++ " WHERE ") " AND " pre.2
      else (sql1, pre.2, none)
    match wh.2.2 with
    | some err => some ("", wh.2.1, some err)
    | none =>
      let sql2 :=
        if d.OrderBys.length > 0 then wh.1 ++ " ORDER BY " ++ strings.Join d.OrderBys ", "
        else wh.1
      let sql3 := if d.Limit.length > 0 then sql2 ++ " LIMIT " ++ d.Limit else sql2
      let sql4 := if d.Offset.length > 0 then sql3 ++ " OFFSET " ++ d.Offset else sql3
      let suf : String × List Value :=
        if d.Suffixes.length > 0 then
          ((exprs.AppendToSql d.Suffixes (sql4 ++ " ") " " wh.2.1).1,
            (exprs.AppendToSql d.Suffixes (sql4 ++ " ") " " wh.2.1).2.1)
        else (sql4, wh.2.1)
      match d.PlaceholderFormat with
      | none => none
      | some f => some ((f.ReplacePlaceholders suf.1).1, suf.2, (f.ReplacePlaceholders suf.1).2)

/-- `deleteData.Exec` (delete.go, lines 24-29). `ExecWith` is declared outside the files
at hand and is a parameter; it runs the statement on the runner, which may change the
world `W` (the database and the runner's own state), so the world is threaded through. -/
def deleteData.Exec {W Result : Type}
    (ExecWith : BaseRunner → deleteData → W → W × Option Result × Option error)
    (d : deleteData) (w : W) : W × Option Result × Option error :=
  match d.RunWith with
  | none => (w, none, some error.RunnerNotSet)
  | some runner => ExecWith runner d w

/-! ## The builder -/

/-- Modelled from the spec: the builder value `DeleteBuilder` (a `builder.Builder`, whose
package is not among the files at hand): a value-typed record of the named fields of the
registered struct `deleteData`. -/
structure DeleteBuilder where
  fields : deleteData

/-- The zero value `deleteData{}`. -/
def deleteData.zero : deleteData :=
  { PlaceholderFormat := none, RunWith := none, Prefixes := [], From := "", WhereParts := [],
    OrderBys := [], Limit := "", Offset := "", Suffixes := [] }

/-- The zero value `DeleteBuilder{}`, the empty builder. -/
def DeleteBuilder.zero : DeleteBuilder :=
  { fields := deleteData.zero }

/-- A value handed to the mutation core for a field: the Go value is an `interface{}`,
here the sum of the types that the fields of `deleteData` have. -/
inductive FieldValue
  | format (f : Option PlaceholderFormat)
  | runner (r : Option BaseRunner)
  | string (s : String)
  | expr (e : expr)
  | sqlizer (p : Sqlizer)
  | strings (ss : List String)

/-- Modelled from the spec: `builder.GetStruct(record)`, the underlying value for the
render stage to consume. -/
def builder.GetStruct (b : DeleteBuilder) : deleteData :=
  b.fields

/-- Modelled from the spec: `builder.Set(record, fieldName, value)`: a copy of the record
with the named field replaced; fatal (`none`) if the field does not exist or the value is
not assignable to the field's declared type. -/
def builder.Set (b : DeleteBuilder) (name : String) (v : FieldValue) : Option DeleteBuilder :=
  match name, v with
  | "PlaceholderFormat", .format f => some { fields := { b.fields with PlaceholderFormat := f } }
  | "RunWith", .runner r => some { fields := { b.fields with RunWith := r } }
  | "From", .string s => some { fields := { b.fields with From := s } }
  | "Limit", .string s => some { fields := { b.fields with Limit := s } }
  | "Offset", .string s => some { fields := { b.fields with Offset := s } }
  | _, _ => none

/-- Modelled from the spec: `builder.Append(record, fieldName, item)`: the named field
must be an ordered sequence; a copy of the record with the item appended to it. -/
def builder.Append (b : DeleteBuilder) (name : String) (v : FieldValue) : Option DeleteBuilder :=
  match name, v with
  | "Prefixes", .expr e => some { fields := { b.fields with Prefixes := b.fields.Prefixes ++ [e] } }
  | "WhereParts", .sqlizer p =>
    some { fields := { b.fields with WhereParts := b.fields.WhereParts ++ [p] } }
  | "Suffixes", .expr e => some { fields := { b.fields with Suffixes := b.fields.Suffixes ++ [e] } }
  | _, _ => none

/-- Modelled from the spec: `builder.Extend(record, fieldName, items)`: a copy of the
record with the items appended, in order, to the named sequence field. -/
def builder.Extend (b : DeleteBuilder) (name : String) (vs : FieldValue) : Option DeleteBuilder :=
  match name, vs with
  | "OrderBys", .strings ss =>
    some { fields := { b.fields with OrderBys := b.fields.OrderBys ++ ss } }
  | _, _ => none

/-- Modelled from the spec: `setRunWith(b, runner)` (not among the files at hand), which
stores the runner handle in the field `RunWith`. -/
def setRunWith (b : DeleteBuilder) (runner : Option BaseRunner) : Option DeleteBuilder :=
  builder.Set b "RunWith" (.runner runner)

/-- The first argument of `Where`, an `interface{}` in the source: a literal SQL string
or an expression. -/
inductive Pred
  | sql (s : String)
  | sqlizer (p : Sqlizer)

/-- Modelled from the spec: `newWherePart(pred, args...)` (not among the files at hand).
A literal SQL string with its arguments is a raw fragment, rendered verbatim; an
expression renders as itself. -/
def newWherePart (pred : Pred) (args : List Value) : Sqlizer :=
  match pred with
  | .sql s => { ToSql := (s, args, none) }
  | .sqlizer p => p

/-- An address of a builder variable (a `*DeleteBuilder`). -/
abbrev Ptr := Nat

/-- The builder variables of the program, by address. -/
abbrev Store := Ptr → DeleteBuilder

/-- The assignment `*b = v; return b` that ends every mutator: the store with the
receiver's variable overwritten, and the receiver as the result. A fatal failure of the
mutation core (`none`) is a panic of the mutator. -/
def assignAndReturn (b : Ptr) (v : Option DeleteBuilder) (σ : Store) : Option (Store × Ptr) :=
  match v with
  | none => none
  | some nb => some (Function.update σ b nb, b)

/-- `DeleteBuilder.PlaceholderFormat` (delete.go, lines 92-95). -/
def DeleteBuilder.PlaceholderFormat (b : Ptr) (f : Option PlaceholderFormat) (σ : Store) :
    Option (Store × Ptr) :=
  assignAndReturn b (builder.Set (σ b) "PlaceholderFormat" (.format f)) σ

/-- `DeleteBuilder.RunWith` (delete.go, lines 100-103). -/
def DeleteBuilder.RunWith (b : Ptr) (runner : Option BaseRunner) (σ : Store) :
    Option (Store × Ptr) :=
  assignAndReturn b (setRunWith (σ b) runner) σ

/-- `DeleteBuilder.Exec` (delete.go, lines 106-109). -/
def DeleteBuilder.Exec {W Result : Type}
    (ExecWith : BaseRunner → deleteData → W → W × Option Result × Option error)
    (b : Ptr) (σ : Store) (w : W) : W × Option Result × Option error :=
  deleteData.Exec ExecWith (builder.GetStruct (σ b)) w

/-- `DeleteBuilder.ToSql` (delete.go, lines 114-118): the store after the call and the
result of rendering the record of the copied builder value. -/
def DeleteBuilder.ToSql (b : Ptr) (σ : Store) :
    Store × Option (String × List Value × Option error) :=
  let a := σ b
  let data := builder.GetStruct a
  (σ, data.ToSql)

/-- `DeleteBuilder.Prefix` (delete.go, lines 121-124). -/
def DeleteBuilder.Prefix (b : Ptr) (sql : String) (args : List Value) (σ : Store) :
    Option (Store × Ptr) :=
  assignAndReturn b (builder.Append (σ b) "Prefixes" (.expr (Expr sql args))) σ

/-- `DeleteBuilder.From` (delete.go, lines 127-130). -/
def DeleteBuilder.From (b : Ptr) (from_ : String) (σ : Store) : Option (Store × Ptr) :=
  assignAndReturn b (builder.Set (σ b) "From" (.string from_)) σ

/-- `DeleteBuilder.Where` (delete.go, lines 135-138). -/
def DeleteBuilder.Where (b : Ptr) (pred : Pred) (args : List Value) (σ : Store) :
    Option (Store × Ptr) :=
  assignAndReturn b (builder.Append (σ b) "WhereParts" (.sqlizer (newWherePart pred args))) σ

/-- `DeleteBuilder.OrderBy` (delete.go, lines 141-144). -/
def DeleteBuilder.OrderBy (b : Ptr) (orderBys : List String) (σ : Store) :
    Option (Store × Ptr) :=
  assignAndReturn b (builder.Extend (σ b) "OrderBys" (.strings orderBys)) σ

/-- `DeleteBuilder.Limit` (delete.go, lines 147-150). -/
def DeleteBuilder.Limit (b : Ptr) (limit : Nat) (σ : Store) : Option (Store × Ptr) :=
  assignAndReturn b (builder.Set (σ b) "Limit" (.string (fmt.Sprintf_d limit))) σ

/-- `DeleteBuilder.Offset` (delete.go, lines 153-156). -/
def DeleteBuilder.Offset (b : Ptr) (offset : Nat) (σ : Store) : Option (Store × Ptr) :=
  assignAndReturn b (builder.Set (σ b) "Offset" (.string (fmt.Sprintf_d offset))) σ

/-- `DeleteBuilder.Suffix` (delete.go, lines 159-162). -/
def DeleteBuilder.Suffix (b : Ptr) (sql : String) (args : List Value) (σ : Store) :
    Option (Store × Ptr) :=
  assignAndReturn b (builder.Append (σ b) "Suffixes" (.expr (Expr sql args))) σ

/-- One call of a mutator of `DeleteBuilder`, with its arguments. -/
inductive Mutation
  | PlaceholderFormat (f : Option PlaceholderFormat)
  | RunWith (runner : Option BaseRunner)
  | Prefix (sql : String) (args : List Value)
  | From (from_ : String)
  | Where (pred : Pred) (args : List Value)
  | OrderBy (orderBys : List String)
  | Limit (limit : Nat)
  | Offset (offset : Nat)
  | Suffix (sql : String) (args : List Value)

/-- The mutator call `m` made on the builder at address `b`. -/
def Mutation.call (m : Mutation) (b : Ptr) (σ : Store) : Option (Store × Ptr) :=
  match m with
  | .PlaceholderFormat f => DeleteBuilder.PlaceholderFormat b f σ
  | .RunWith runner => DeleteBuilder.RunWith b runner σ
  | .Prefix sql args => DeleteBuilder.Prefix b sql args σ
  | .From from_ => DeleteBuilder.From b from_ σ
  | .Where pred args => DeleteBuilder.Where b pred args σ
  | .OrderBy orderBys => DeleteBuilder.OrderBy b orderBys σ
  | .Limit limit => DeleteBuilder.Limit b limit σ
  | .Offset offset => DeleteBuilder.Offset b offset σ
  | .Suffix sql args => DeleteBuilder.Suffix b sql args σ

/-- A chain `b.m₁(..).m₂(..)...`: each call is made on the pointer that the previous one
returned. -/
def Mutation.chain : List Mutation → Ptr → Store → Option (Store × Ptr)
  | [], b, σ => some (σ, b)
  | m :: ms, b, σ =>
    match m.call b σ with
    | none => none
    | some (σ1, b1) => Mutation.chain ms b1 σ1

/-! ## `update_ctx.go` -/

/-- Modelled from the spec: the record `updateData` (declared outside the files at hand):
the optional runner handle, and the remaining fields of the statement, which the run
operations do not read. -/
structure updateData (Rest : Type) where
  RunWith : Option BaseRunner
  rest : Rest

/-- Modelled from the spec: the `Row` that the query-row operations return (declared
outside the files at hand): the scanner obtained from the runner, if any, and an error. -/
structure Row (Scanner : Type) where
  RowScanner : Option Scanner
  err : Option error

/-- `updateData.ExecContext` (update_ctx.go, lines 12-21). `ExecContextWith` is declared
outside the files at hand and is a parameter. -/
def updateData.ExecContext {W Ctx Result Rest : Type}
    (ExecContextWith : Ctx → BaseRunner → updateData Rest → W → W × Option Result × Option error)
    (d : updateData Rest) (ctx : Ctx) (w : W) : W × Option Result × Option error :=
  match d.RunWith with
  | none => (w, none, some error.RunnerNotSet)
  | some runner =>
    if runner.ExecerContext = false then (w, none, some error.NoContextSupport)
    else ExecContextWith ctx runner d w

/-- `updateData.QueryContext` (update_ctx.go, lines 23-32). `QueryContextWith` is declared
outside the files at hand and is a parameter. -/
def updateData.QueryContext {W Ctx Rows Rest : Type}
    (QueryContextWith : Ctx → BaseRunner → updateData Rest → W → W × Option Rows × Option error)
    (d : updateData Rest) (ctx : Ctx) (w : W) : W × Option Rows × Option error :=
  match d.RunWith with
  | none => (w, none, some error.RunnerNotSet)
  | some runner =>
    if runner.QueryerContext = false then (w, none, some error.NoContextSupport)
    else QueryContextWith ctx runner d w

/-- `updateData.QueryRowContext` (update_ctx.go, lines 34-46). `QueryRowContextWith` is
declared outside the files at hand and is a parameter. -/
def updateData.QueryRowContext {W Ctx Scanner Rest : Type}
    (QueryRowContextWith : Ctx → BaseRunner → updateData Rest → W → W × Row Scanner)
    (d : updateData Rest) (ctx : Ctx) (w : W) : W × Row Scanner :=
  match d.RunWith with
  | none => (w, { RowScanner := none, err := some error.RunnerNotSet })
  | some runner =>
    if runner.QueryRowerContext = false then
      if runner.QueryerContext = false then
        (w, { RowScanner := none, err := some error.RunnerNotQueryRunner })
      else (w, { RowScanner := none, err := some error.NoContextSupport })
    else QueryRowContextWith ctx runner d w

/-! ## The specification's wording of the rendered statement -/

/-- The text that the clause-order sentence of the specification prescribes for a delete
record: prefixes, `DELETE FROM <table>`, WHERE, ORDER BY, LIMIT, OFFSET, suffixes, each
clause present only when its field is non-empty. -/
def deleteClauseText (d : deleteData) : String :=
  (if d.Prefixes.length > 0 then strings.Join (d.Prefixes.map (·.sql)) " " ++ " " else "") ++
  ("DELETE FROM " ++ d.From) ++
  (if d.WhereParts.length > 0 then
    " WHERE " ++ strings.Join (d.WhereParts.map (·.ToSql.1)) " AND " else "") ++
  (if d.OrderBys.length > 0 then " ORDER BY " ++ strings.Join d.OrderBys ", " else "") ++
  (if d.Limit.length > 0 then " LIMIT " ++ d.Limit else "") ++
  (if d.Offset.length > 0 then " OFFSET " ++ d.Offset else "") ++
  (if d.Suffixes.length > 0 then " " ++ strings.Join (d.Suffixes.map (·.sql)) " " else "")

/-- The argument list that the specification prescribes: the arguments of the prefixes,
then of the WHERE parts, then of the suffixes, each in its given order. -/
def deleteArgList (d : deleteData) : List Value :=
  (d.Prefixes.map (·.args)).flatten ++ (d.WhereParts.map (·.ToSql.2.1)).flatten ++
    (d.Suffixes.map (·.args)).flatten

/-! ## Sample records -/

/-- A delete record with every clause present, under the `Question` format. -/
def sampleFull : deleteData :=
  { PlaceholderFormat := some Question
    RunWith := none
    Prefixes := [Expr "WITH t AS ?" [Value.int 0]]
    From := "users"
    WhereParts := [newWherePart (Pred.sql "id = ?") [Value.int 5],
      newWherePart (Pred.sql "name = ?") [Value.str "bob"]]
    OrderBys := ["id", "name DESC"]
    Limit := "10"
    Offset := "20"
    Suffixes := [Expr "RETURNING ?" [Value.int 7]] }

/-- A delete record with a table and one WHERE part that fails to render. -/
def sampleBadPart : deleteData :=
  { deleteData.zero with
    From := "t"
    WhereParts := [{ ToSql := ("", [], some (error.other "bad predicate")) }] }

/-- The empty store: every builder variable holds the empty builder. -/
def Store.zero : Store :=
  fun _ => DeleteBuilder.zero

/-- The chain `PlaceholderFormat(Question).From("users").Where("id = ?", 5)`. -/
def sampleDeleteUsers : List Mutation :=
  [Mutation.PlaceholderFormat (some Question), Mutation.From "users",
    Mutation.Where (Pred.sql "id = ?") [Value.int 5]]

/-- What `ToSql` returns on the builder that a chain of mutator calls, made on the
variable at address 0 of the empty store, returns; `none` if a call of the chain panics. -/
def renderChain (ms : List Mutation) : Option (Option (String × List Value × Option error)) :=
  (Mutation.chain ms 0 Store.zero).map (fun r => (DeleteBuilder.ToSql r.2 r.1).2)

/-- A delete record in which every raw fragment and WHERE part has as many arguments as
its SQL has markers, and the table, the order-bys, the limit and the offset have no
marker. -/
def deleteData.MarkersMatch (d : deleteData) : Prop :=
  (∀ e ∈ d.Prefixes, markers e.sql = e.args.length) ∧ markers d.From = 0 ∧
  (∀ p ∈ d.WhereParts, markers p.ToSql.1 = p.ToSql.2.1.length) ∧
  (∀ s ∈ d.OrderBys, markers s = 0) ∧ markers d.Limit = 0 ∧ markers d.Offset = 0 ∧
  (∀ e ∈ d.Suffixes, markers e.sql = e.args.length)

/-- A mutator call whose fragment has as many arguments as its SQL has markers (`Prefix`,
`Where`, `Suffix`), or whose strings have no marker (`From`, `OrderBy`). -/
def Mutation.MarkersMatch : Mutation → Prop
  | .Prefix sql args => markers sql = args.length
  | .Suffix sql args => markers sql = args.length
  | .Where pred args =>
    markers (newWherePart pred args).ToSql.1 = (newWherePart pred args).ToSql.2.1.length
  | .From from_ => markers from_ = 0
  | .OrderBy orderBys => ∀ s ∈ orderBys, markers s = 0
  | _ => True

/-- The chain `PlaceholderFormat(Question).From("users").Where("id = ?")`, whose predicate
has a marker and no argument. -/
def sampleNoArg : List Mutation :=
  [Mutation.PlaceholderFormat (some Question), Mutation.From "users",
    Mutation.Where (Pred.sql "id = ?") []]

/-- The chain `PlaceholderFormat(Question).From("a?")`, whose table name has a marker. -/
def sampleMarkerInFrom : List Mutation :=
  [Mutation.PlaceholderFormat (some Question), Mutation.From "a?"]

/-- A chain in which every fragment has as many arguments as markers. -/
def sampleMatched : List Mutation :=
  [Mutation.PlaceholderFormat (some Question), Mutation.From "users",
    Mutation.Prefix "WITH t AS ?" [Value.int 0],
    Mutation.Where (Pred.sql "id = ? OR id = ?") [Value.int 5, Value.int 6],
    Mutation.OrderBy ["id"], Mutation.Limit 10, Mutation.Offset 0,
    Mutation.Suffix "RETURNING id" []]

/-- The builder value that a mutator call assigns to the receiver's variable, given the
value `v` the variable holds before the call. -/
def Mutation.apply (m : Mutation) (v : DeleteBuilder) : DeleteBuilder :=
  match m with
  | .PlaceholderFormat f => { fields := { v.fields with PlaceholderFormat := f } }
  | .RunWith runner => { fields := { v.fields with RunWith := runner } }
  | .Prefix sql args =>
    { fields := { v.fields with Prefixes := v.fields.Prefixes ++ [Expr sql args] } }
  | .From from_ => { fields := { v.fields with From := from_ } }
  | .Where pred args =>
    { fields := { v.fields with WhereParts := v.fields.WhereParts ++ [newWherePart pred args] } }
  | .OrderBy orderBys => { fields := { v.fields with OrderBys := v.fields.OrderBys ++ orderBys } }
  | .Limit limit => { fields := { v.fields with Limit := fmt.Sprintf_d limit } }
  | .Offset offset => { fields := { v.fields with Offset := fmt.Sprintf_d offset } }
  | .Suffix sql args =>
    { fields := { v.fields with Suffixes := v.fields.Suffixes ++ [Expr sql args] } }

/-- A store in which every variable holds a copy of one builder, for the table `a` under
the `Question` format. -/
def sampleStore : Store :=
  fun _ => { fields := { deleteData.zero with PlaceholderFormat := some Question, From := "a" } }

/-- An update record without a runner; the remaining fields are left abstract. -/
def sampleUpdateNoRunner : updateData Unit :=
  { RunWith := none, rest := () }

/-- A runner whose type implements `ExecerContext` only. -/
def sampleExecOnly : BaseRunner :=
  { id := 1, ExecerContext := true, QueryerContext := false, QueryRowerContext := false }

/-- A runner whose type implements `QueryerContext` only. -/
def sampleQueryOnly : BaseRunner :=
  { id := 2, ExecerContext := false, QueryerContext := true, QueryRowerContext := false }

/-- A runner whose type implements `QueryRowerContext` only. -/
def sampleQueryRowOnly : BaseRunner :=
  { id := 3, ExecerContext := false, QueryerContext := false, QueryRowerContext := true }

/-- An update record whose runner implements `ExecerContext` only. -/
def sampleUpdateExecOnly : updateData Unit :=
  { RunWith := some sampleExecOnly, rest := () }

/-- An update record whose runner implements `QueryerContext` only. -/
def sampleUpdateQueryOnly : updateData Unit :=
  { RunWith := some sampleQueryOnly, rest := () }

/-- An update record whose runner implements `QueryRowerContext` only. -/
def sampleUpdateQueryRowOnly : updateData Unit :=
  { RunWith := some sampleQueryRowOnly, rest := () }

/-- A stand-in for the functions `ExecWith`, `ExecContextWith` and `QueryContextWith` in
the sample evaluations: the world counts the calls made, the result names the runner. -/
def sampleRun {Ctx D : Type} (_ctx : Ctx) (runner : BaseRunner) (_d : D) (w : Nat) :
    Nat × Option Nat × Option error :=
  (w + 1, some runner.id, none)

/-- A stand-in for the function `QueryRowContextWith` in the sample evaluations. -/
def sampleRunRow {Ctx D : Type} (_ctx : Ctx) (runner : BaseRunner) (_d : D) (w : Nat) :
    Nat × Row Nat :=
  (w + 1, { RowScanner := some runner.id, err := none })

/-- The prefix clause of the specification's clause text: the prefixes joined by a space
and followed by one space, or nothing when there is no prefix. -/
def deletePrefixClause (d : deleteData) : String :=
  if d.Prefixes.length > 0 then strings.Join (d.Prefixes.map (·.sql)) " " ++ " " else ""

/-- A placeholder format whose rewrite fails. -/
def sampleFailingFormat : PlaceholderFormat :=
  { ReplacePlaceholders := fun _ => ("", some (error.other "unsupported placeholder")) }

/-- A placeholder format whose rewrite returns the empty text and no error. -/
def sampleBlankFormat : PlaceholderFormat :=
  { ReplacePlaceholders := fun _ => ("", none) }

/-- A delete record with a table, one predicate with its argument, and the failing format. -/
def sampleFailingRewrite : deleteData :=
  { deleteData.zero with
    PlaceholderFormat := some sampleFailingFormat
    From := "users"
    WhereParts := [newWherePart (Pred.sql "id = ?") [Value.int 5]] }

/-- A delete record with a table and the blank format. -/
def sampleBlankRewrite : deleteData :=
  { deleteData.zero with
    PlaceholderFormat := some sampleBlankFormat
    From := "users" }

/-- The record with every clause present, under the `Dollar` format. -/
def sampleFullDollar : deleteData :=
  { sampleFull with PlaceholderFormat := some Dollar }

/-! ## The INSERT statement, as the tests of `insert_test.go` use it -/

/-- One value of a VALUES row (an `interface{}` in the tests): a plain value, or a raw
fragment made with `Expr`. -/
inductive InsertValue
  | plain (v : Value)
  | expr (e : expr)
  deriving DecidableEq, Repr

/-- Modelled from the spec: the record of an INSERT statement (insert.go is not among the
files at hand): the fields common to every statement record, the options, the target
table, the column name list, the ordered list of value rows, and the nested SELECT. -/
structure insertData where
  PlaceholderFormat : Option PlaceholderFormat
  RunWith : Option BaseRunner
  Prefixes : List expr
  Options : List String
  Into : String
  Columns : List String
  Values : List (List InsertValue)
  Suffixes : List expr
  Select : Option Sqlizer

/-- Modelled from the spec: the rendering of the values of one row, left to right: a
plain value is written as one marker and appended to the arguments, a raw fragment is
written as its own SQL and its arguments are appended. -/
def insertData.valueStrings : List InsertValue → List Value → List String × List Value
  | [], args => ([], args)
  | .plain v :: rest, args =>
    ("?" :: (insertData.valueStrings rest (args ++ [v])).1,
      (insertData.valueStrings rest (args ++ [v])).2)
  | .expr e :: rest, args =>
    (e.sql :: (insertData.valueStrings rest (args ++ e.args)).1,
      (insertData.valueStrings rest (args ++ e.args)).2)

/-- Modelled from the spec: the rendering of the rows, in order: each row is its value
texts joined by `,` between parentheses. -/
def insertData.valuesStrings : List (List InsertValue) → List Value → List String × List Value
  | [], args => ([], args)
  | row :: rows, args =>
    (("(" ++ strings.Join (insertData.valueStrings row args).1 "," ++ ")") ::
        (insertData.valuesStrings rows (insertData.valueStrings row args).2).1,
      (insertData.valuesStrings rows (insertData.valueStrings row args).2).2)

/-- Modelled from the spec: the renderer of an INSERT statement (insert.go is not among
the files at hand). The required-field checks precede rendering: the statement fails with
no target table, and with neither a values row nor a select source. The clauses are then
written in the order of an INSERT statement, with the texts that the tests of
`insert_test.go` expect: prefixes, `INSERT`, options, `INTO` and the table, the column
list, the nested SELECT or `VALUES` and the rows, suffixes; the placeholder rewrite comes
last, as in `deleteData.ToSql`. -/
def insertData.ToSql (d : insertData) : Option (String × List Value × Option error) :=
  if d.Into.length = 0 then
    some ("", [], some (error.other "insert statements must specify a table"))
  else if d.Values.length = 0 ∧ d.Select.isNone then
    some ("", [], some (error.other "insert statements must have values or a select clause"))
  else
    let pre : String × List Value :=
      if d.Prefixes.length > 0 then
        ((exprs.AppendToSql d.Prefixes "" " " []).1 ++ " ",
          (exprs.AppendToSql d.Prefixes "" " " []).2.1)
      else ("", [])
    let sql1 := pre.1 ++ "INSERT "
    let sql2 := if d.Options.length > 0 then sql1 ++ strings.Join d.Options " " ++ " " else sql1
    let sql3 := sql2 ++ "INTO " ++ d.Into ++ " "
    let sql4 := if d.Columns.length > 0 then sql3 ++ "(" ++ strings.Join d.Columns "," ++ ") "
      else sql3
    let body : String × List Value × Option error :=
      match d.Select with
      | some sel =>
        match sel.ToSql.2.2 with
        | some err => (sql4, [], some err)
        | none => (sql4 ++ sel.ToSql.1, pre.2 ++ sel.ToSql.2.1, none)
      | none =>
        (sql4 ++ "VALUES " ++ strings.Join (insertData.valuesStrings d.Values pre.2).1 ",",
          (insertData.valuesStrings d.Values pre.2).2, none)
    match body.2.2 with
    | some err => some ("", body.2.1, some err)
    | none =>
      let suf : String × List Value :=
        if d.Suffixes.length > 0 then
          ((exprs.AppendToSql d.Suffixes (body.1 ++ " ") " " body.2.1).1,
            (exprs.AppendToSql d.Suffixes (body.1 ++ " ") " " body.2.1).2.1)
        else (body.1, body.2.1)
      match d.PlaceholderFormat with
      | none => none
      | some f => some ((f.ReplacePlaceholders suf.1).1, suf.2, (f.ReplacePlaceholders suf.1).2)

/-- Modelled from the spec: the builder value of an INSERT statement, a value-typed
record of the named fields of `insertData`. -/
structure InsertBuilder where
  fields : insertData

/-- Modelled from the spec: the constructor `Insert(into)`: the empty record with the
target table set. The tests render builders on which no format was set with `?` markers,
so the record starts with the `Question` format. -/
def Insert (into : String) : InsertBuilder :=
  { fields :=
      { PlaceholderFormat := some Question, RunWith := none, Prefixes := [], Options := [],
        Into := into, Columns := [], Values := [], Suffixes := [], Select := none } }

/-- Modelled from the spec: `InsertBuilder.PlaceholderFormat`: the builder after the
call, with the format replaced. -/
def InsertBuilder.PlaceholderFormat (b : InsertBuilder) (f : Option PlaceholderFormat) :
    InsertBuilder :=
  { fields := { b.fields with PlaceholderFormat := f } }

/-- Modelled from the spec: `InsertBuilder.Prefix`: the builder after the call, with the
raw fragment appended to the prefixes. -/
def InsertBuilder.Prefix (b : InsertBuilder) (sql : String) (args : List Value) : InsertBuilder :=
  { fields := { b.fields with Prefixes := b.fields.Prefixes ++ [Expr sql args] } }

/-- Modelled from the spec: `InsertBuilder.Options`: the builder after the call, with the
keywords appended to the options. -/
def InsertBuilder.Options (b : InsertBuilder) (options : List String) : InsertBuilder :=
  { fields := { b.fields with Options := b.fields.Options ++ options } }

/-- Modelled from the spec: `InsertBuilder.Into`: the builder after the call, with the
target table replaced. -/
def InsertBuilder.Into (b : InsertBuilder) (into : String) : InsertBuilder :=
  { fields := { b.fields with Into := into } }

/-- Modelled from the spec: `InsertBuilder.Columns`: the builder after the call, with the
names appended to the column list. -/
def InsertBuilder.Columns (b : InsertBuilder) (columns : List String) : InsertBuilder :=
  { fields := { b.fields with Columns := b.fields.Columns ++ columns } }

/-- Modelled from the spec: `InsertBuilder.Values`: the builder after the call, with one
row appended to the value rows. -/
def InsertBuilder.Values (b : InsertBuilder) (values : List InsertValue) : InsertBuilder :=
  { fields := { b.fields with Values := b.fields.Values ++ [values] } }

/-- Modelled from the spec: `InsertBuilder.Suffix`: the builder after the call, with the
raw fragment appended to the suffixes. -/
def InsertBuilder.Suffix (b : InsertBuilder) (sql : String) (args : List Value) : InsertBuilder :=
  { fields := { b.fields with Suffixes := b.fields.Suffixes ++ [Expr sql args] } }

/-- Modelled from the spec: `InsertBuilder.Select`: the builder after the call, with the
nested SELECT set as the source of the rows. -/
def InsertBuilder.Select (b : InsertBuilder) (sb : Sqlizer) : InsertBuilder :=
  { fields := { b.fields with Select := some sb } }

/-- Modelled from the spec: `InsertBuilder.ToSql`: the rendering of the builder's record. -/
def InsertBuilder.ToSql (b : InsertBuilder) : Option (String × List Value × Option error) :=
  b.fields.ToSql

/-- The text of one value of a row: one marker for a plain value, its own SQL for a raw
fragment. -/
def InsertValue.text : InsertValue → String
  | .plain _ => "?"
  | .expr e => e.sql

/-- The arguments of one value of a row: the value itself for a plain value, its own
arguments for a raw fragment. -/
def InsertValue.args : InsertValue → List Value
  | .plain v => [v]
  | .expr e => e.args

/-- The keywords, each preceded by a space. -/
def eachAfterSpace : List String → String
  | [] => ""
  | a :: rest => " " ++ a ++ eachAfterSpace rest

/-- The text of one row: its value texts joined by `,` between parentheses. -/
def insertRowText (row : List InsertValue) : String :=
  "(" ++ strings.Join (row.map InsertValue.text) "," ++ ")"

/-- The text that the claim on the INSERT statement prescribes for a record with values:
the prefixes and a space, `INSERT`, the options each preceded by a space, ` INTO ` and the
table, the parenthesised column list after a space, ` VALUES ` and the rows joined by `,`,
a space and the suffixes. -/
def insertClauseText (d : insertData) : String :=
  (if d.Prefixes.length > 0 then strings.Join (d.Prefixes.map (·.sql)) " " ++ " " else "") ++
  "INSERT" ++ eachAfterSpace d.Options ++
  (" INTO " ++ d.Into) ++
  (if d.Columns.length > 0 then " (" ++ strings.Join d.Columns "," ++ ")" else "") ++
  (" VALUES " ++ strings.Join (d.Values.map insertRowText) ",") ++
  (if d.Suffixes.length > 0 then " " ++ strings.Join (d.Suffixes.map (·.sql)) " " else "")

/-- The argument list that the claim on the INSERT statement prescribes: the arguments of
the prefixes, of the values row by row, and of the suffixes, left to right. -/
def insertArgList (d : insertData) : List Value :=
  (d.Prefixes.map (·.args)).flatten ++
    (d.Values.map (fun row => (row.map InsertValue.args).flatten)).flatten ++
    (d.Suffixes.map (·.args)).flatten

/-- The builder of `TestInsertBuilderToSql`. -/
def sampleInsertTest : InsertBuilder :=
  ((((((Insert "").Prefix "WITH prefix AS ?" [Value.int 0]).Into "a").Options
    ["DELAYED", "IGNORE"]).Columns ["b", "c"]).Values
      [InsertValue.plain (Value.int 1), InsertValue.plain (Value.int 2)]).Values
      [InsertValue.plain (Value.int 3), InsertValue.expr (Expr "? + 1" [Value.int 4])]
    |>.Suffix "RETURNING ?" [Value.int 5]

/-- The builder `Insert("test").Values(1, 2)` of `TestInsertBuilderPlaceholders`. -/
def sampleInsertPlaceholders : InsertBuilder :=
  (Insert "test").Values [InsertValue.plain (Value.int 1), InsertValue.plain (Value.int 2)]

/-- A text written as its marker-free pieces: every piece of the list is preceded by one
marker `?`. -/
def marked : List String → String
  | [] => ""
  | s :: rest => "?" ++ s ++ marked rest

/-- The same pieces with the markers numbered: when `k` markers have been met, the next
one is written `$` followed by `k + 1`. -/
def numbered : Nat → List String → String
  | _, [] => ""
  | k, s :: rest => "$" ++ toString (k + 1) ++ s ++ numbered (k + 1) rest

/-- A builder with a table, one values row and a select source:
`Insert("t").Values(1).Select(sb)`, where `sb` renders to `SELECT 1`. -/
def sampleInsertValuesAndSelect : InsertBuilder :=
  ((Insert "t").Values [InsertValue.plain (Value.int 1)]).Select
    { ToSql := ("SELECT 1", [], none) }

/-- A builder without a target table, with one values row: `Insert("").Values(1)`. -/
def sampleInsertNoTable : InsertBuilder :=
  (Insert "").Values [InsertValue.plain (Value.int 1)]

/-- The names of the fields of `deleteData`. -/
inductive Field
  | PlaceholderFormat
  | RunWith
  | Prefixes
  | From
  | WhereParts
  | OrderBys
  | Limit
  | Offset
  | Suffixes
  deriving DecidableEq, Repr

/-- The record `d1` has, in every field other than `fld`, the value that `d` has. -/
def deleteData.agreeOff (fld : Field) (d d1 : deleteData) : Prop :=
  (fld ≠ Field.PlaceholderFormat → d1.PlaceholderFormat = d.PlaceholderFormat) ∧
  (fld ≠ Field.RunWith → d1.RunWith = d.RunWith) ∧
  (fld ≠ Field.Prefixes → d1.Prefixes = d.Prefixes) ∧
  (fld ≠ Field.From → d1.From = d.From) ∧
  (fld ≠ Field.WhereParts → d1.WhereParts = d.WhereParts) ∧
  (fld ≠ Field.OrderBys → d1.OrderBys = d.OrderBys) ∧
  (fld ≠ Field.Limit → d1.Limit = d.Limit) ∧
  (fld ≠ Field.Offset → d1.Offset = d.Offset) ∧
  (fld ≠ Field.Suffixes → d1.Suffixes = d.Suffixes)

/-- The outcome `r` of a mutator call on the builder at `b` in the store `σ` is a return,
of the receiver, after which the record of the receiver differs from its record before at
most in the field `fld`. -/
def changesOnly (fld : Field) (r : Option (Store × Ptr)) (b : Ptr) (σ : Store) : Prop :=
  ∃ σ1, r = some (σ1, b) ∧
    deleteData.agreeOff fld (builder.GetStruct (σ b)) (builder.GetStruct (σ1 b))

/-- The record of the builder at `b` after the outcome `r` of one or several mutator
calls; the record of the empty builder if a call panicked. -/
def recordAfter (r : Option (Store × Ptr)) (b : Ptr) : deleteData :=
  match r with
  | none => deleteData.zero
  | some (σ1, _) => builder.GetStruct (σ1 b)

/-- The clauses of the clause text that come before LIMIT: prefixes, `DELETE FROM` and the
table, WHERE, ORDER BY. -/
def deleteHeadText (d : deleteData) : String :=
  (if d.Prefixes.length > 0 then strings.Join (d.Prefixes.map (·.sql)) " " ++ " " else "") ++
  ("DELETE FROM " ++ d.From) ++
  (if d.WhereParts.length > 0 then
    " WHERE " ++ strings.Join (d.WhereParts.map (·.ToSql.1)) " AND " else "") ++
  (if d.OrderBys.length > 0 then " ORDER BY " ++ strings.Join d.OrderBys ", " else "")

/-- The clause of the clause text that comes after OFFSET: the suffixes. -/
def deleteTailText (d : deleteData) : String :=
  if d.Suffixes.length > 0 then " " ++ strings.Join (d.Suffixes.map (·.sql)) " " else ""

/-- The mutator call is a call of `Limit`. -/
def Mutation.isLimit : Mutation → Bool
  | .Limit _ => true
  | _ => false

/-- The mutator call is a call of `Offset`. -/
def Mutation.isOffset : Mutation → Bool
  | .Offset _ => true
  | _ => false

/-- The zero record with the table `t` set and nothing else, the placeholder format being
nil. -/
def sampleNilFormat : deleteData :=
  { deleteData.zero with From := "t" }

/-- A delete record with a table, a predicate, an order and a suffix, without limit and
offset. -/
def sampleNoLimit : deleteData :=
  { deleteData.zero with
    PlaceholderFormat := some Question
    From := "users"
    WhereParts := [newWherePart (Pred.sql "id > ?") [Value.int 5]]
    OrderBys := ["id"]
    Suffixes := [Expr "RETURNING id" []] }

/-! ## Rendering with collaborators that have state -/

/-- Modelled from the spec: the `Sqlizer` interface, for an expression whose rendering may
read and change state outside the statement record, such as the order in which the run
time iterates the map of an equality-from-map predicate, which is not stable across
calls. `W` is that state; a call of `ToSql` returns the state it leaves and the triple. -/
structure stateful.Sqlizer (W : Type) where
  ToSql : W → W × (String × List Value × Option error)

/-- Modelled from the spec: the `PlaceholderFormat` interface, for a format whose rewrite
may read and change state outside the statement record. -/
structure stateful.PlaceholderFormat (W : Type) where
  ReplacePlaceholders : String → W → W × (String × Option error)

/-- Modelled from the spec: the loop of `appendToSql`, as `appendToSql.go`, each part being
rendered in the state that the rendering of the previous part left. -/
def stateful.appendToSql.go {W : Type} (sep : String) :
    Nat → List (stateful.Sqlizer W) → String → List Value → W →
      W × (String × List Value × Option error)
  | _, [], w, args, env => (env, (w, args, none))
  | i, p :: ps, w, args, env =>
    match (p.ToSql env).2.2.2 with
    | some err => ((p.ToSql env).1, (w, [], some err))
    | none =>
      stateful.appendToSql.go sep (i + 1) ps
        ((if i > 0 then w ++ sep else w) ++ (p.ToSql env).2.1)
        (args ++ (p.ToSql env).2.2.1) (p.ToSql env).1

/-- Modelled from the spec: `appendToSql(parts, w, sep, args)` in the state `env`: the
state after the calls, the buffer after the writes, the new argument list, the error. -/
def stateful.appendToSql {W : Type} (parts : List (stateful.Sqlizer W)) (w : String)
    (sep : String) (args : List Value) (env : W) : W × (String × List Value × Option error) :=
  stateful.appendToSql.go sep 0 parts w args env

/-- The record `deleteData` (delete.go, lines 12-22), its two interface-typed rendering
fields holding collaborators with state. -/
structure stateful.deleteData (W : Type) where
  PlaceholderFormat : Option (stateful.PlaceholderFormat W)
  RunWith : Option BaseRunner
  Prefixes : List expr
  From : String
  WhereParts : List (stateful.Sqlizer W)
  OrderBys : List String
  Limit : String
  Offset : String
  Suffixes : List expr

/-- `deleteData.ToSql` (delete.go, lines 31-77) in the state `env`: `none` when the call
panics, otherwise the state that the calls of the WHERE parts and of the placeholder
format left, and the triple of the named results. -/
def stateful.deleteData.ToSql {W : Type} (d : stateful.deleteData W) (env : W) :
    Option (W × (String × List Value × Option error)) :=
  if d.From.length = 0 then
    some (env, ("", [], some error.deleteNoFrom))
  else
    let pre : String × List Value :=
      if d.Prefixes.length > 0 then
        ((exprs.AppendToSql d.Prefixes "" " " []).1 ++ " ",
          (exprs.AppendToSql d.Prefixes "" " " []).2.1)
      else ("", [])
    let sql1 := pre.1 ++ "DELETE FROM " ++ d.From
    let wh : W × (String × List Value × Option error) :=
      if d.WhereParts.length > 0 then
        stateful.appendToSql d.WhereParts (sql1 ++ " WHERE ") " AND " pre.2 env
      else (env, (sql1, pre.2, none))
    match wh.2.2.2 with
    | some err => some (wh.1, ("", wh.2.2.1, some err))
    | none =>
      let sql2 :=
        if d.OrderBys.length > 0 then wh.2.1 ++ " ORDER BY " ++ strings.Join d.OrderBys ", "
        else wh.2.1
      let sql3 := if d.Limit.length > 0 then sql2 ++ " LIMIT " ++ d.Limit else sql2
      let sql4 := if d.Offset.length > 0 then sql3 ++ " OFFSET " ++ d.Offset else sql3
      let suf : String × List Value :=
        if d.Suffixes.length > 0 then
          ((exprs.AppendToSql d.Suffixes (sql4 ++ " ") " " wh.2.2.1).1,
            (exprs.AppendToSql d.Suffixes (sql4 ++ " ") " " wh.2.2.1).2.1)
        else (sql4, wh.2.2.1)
      match d.PlaceholderFormat with
      | none => none
      | some f =>
        some ((f.ReplacePlaceholders suf.1 wh.1).1,
          ((f.ReplacePlaceholders suf.1 wh.1).2.1, suf.2, (f.ReplacePlaceholders suf.1 wh.1).2.2))

/-- Modelled from the spec: the builder value `DeleteBuilder`, over a record with
collaborators with state. -/
structure stateful.DeleteBuilder (W : Type) where
  fields : stateful.deleteData W

/-- Modelled from the spec: `builder.GetStruct(record)`. -/
def stateful.builder.GetStruct {W : Type} (b : stateful.DeleteBuilder W) :
    stateful.deleteData W :=
  b.fields

/-- The builder variables of the program, by address. -/
abbrev stateful.Store (W : Type) := Ptr → stateful.DeleteBuilder W

/-- `DeleteBuilder.ToSql` (delete.go, lines 114-118) in the state `env`: the store after
the call and the outcome of rendering the record of the copied builder value. -/
def stateful.DeleteBuilder.ToSql {W : Type} (b : Ptr) (σ : stateful.Store W) (env : W) :
    stateful.Store W × Option (W × (String × List Value × Option error)) :=
  let a := σ b
  let data := stateful.builder.GetStruct a
  (σ, data.ToSql env)

/-- An expression without state: it renders to its triple and leaves the state as it is. -/
def Sqlizer.withState {W : Type} (p : Sqlizer) : stateful.Sqlizer W :=
  { ToSql := fun env => (env, p.ToSql) }

/-- A placeholder format without state. -/
def PlaceholderFormat.withState {W : Type} (f : PlaceholderFormat) :
    stateful.PlaceholderFormat W :=
  { ReplacePlaceholders := fun sql env => (env, f.ReplacePlaceholders sql) }

/-- A delete record whose WHERE parts and placeholder format have no state. -/
def deleteData.withState {W : Type} (d : deleteData) : stateful.deleteData W :=
  { PlaceholderFormat := d.PlaceholderFormat.map squirrel.PlaceholderFormat.withState
    RunWith := d.RunWith
    Prefixes := d.Prefixes
    From := d.From
    WhereParts := d.WhereParts.map squirrel.Sqlizer.withState
    OrderBys := d.OrderBys
    Limit := d.Limit
    Offset := d.Offset
    Suffixes := d.Suffixes }

/-- The expression renders to the same triple in every state. -/
def stateful.Sqlizer.Deterministic {W : Type} (p : stateful.Sqlizer W) : Prop :=
  ∀ e1 e2 : W, (p.ToSql e1).2 = (p.ToSql e2).2

/-- The format rewrites a text to the same result in every state. -/
def stateful.PlaceholderFormat.Deterministic {W : Type} (f : stateful.PlaceholderFormat W) :
    Prop :=
  ∀ (sql : String) (e1 e2 : W), (f.ReplacePlaceholders sql e1).2 = (f.ReplacePlaceholders sql e2).2

/-- The WHERE parts and the placeholder format of the record render to the same result in
every state. -/
def stateful.deleteData.Deterministic {W : Type} (d : stateful.deleteData W) : Prop :=
  (∀ p ∈ d.WhereParts, p.Deterministic) ∧
  (∀ f, d.PlaceholderFormat = some f → f.Deterministic)

/-- Modelled from the spec: the equality map `{a: 1, b: 2}` as a predicate. Each entry
renders as `column = ?` with its value as argument, in the order in which the run time
iterates the map; the state is the run time's, here a number whose parity gives the order
of the next iteration and which advances with each iteration. -/
def sampleEqMap : stateful.Sqlizer Nat :=
  { ToSql := fun env =>
      (env + 1,
        if env % 2 = 0 then ("a = ? AND b = ?", [Value.int 1, Value.int 2], none)
        else ("b = ? AND a = ?", [Value.int 2, Value.int 1], none)) }

/-- A store in which every variable holds a builder for the table `t` with the equality
map as its predicate, under the `Question` format. -/
def sampleEqMapStore : stateful.Store Nat :=
  fun _ =>
    { fields :=
        { PlaceholderFormat := some Question.withState
          RunWith := none
          Prefixes := []
          From := "t"
          WhereParts := [sampleEqMap]
          OrderBys := []
          Limit := ""
          Offset := ""
          Suffixes := [] } }

/-- A store in which every variable holds the builder of the record with every clause,
whose parts are raw fragments. -/
def sampleFullStore : stateful.Store Nat :=
  fun _ => { fields := sampleFull.withState }

/-! ## Lemmas on strings and on the two append loops -/

theorem length_eq_zero_iff (s : String) : s.length = 0 ↔ s = "" := by
  constructor
  · intro h
    cases s with
    | mk l =>
      have hl : l = [] := List.length_eq_zero.mp h
      subst hl
      rfl
  · rintro rfl
    rfl

theorem exprs_go_cons (sep : String) (e : expr) (es : List expr) :
    ∀ (i : Nat) (w : String) (args : List Value),
      exprs.AppendToSql.go sep i (e :: es) w args =
        ((if i > 0 then w ++ sep else w) ++ strings.Join ((e :: es).map (·.sql)) sep,
          args ++ ((e :: es).map (·.args)).flatten) := by
  induction es generalizing e with
  | nil =>
    intro i w args
    simp [exprs.AppendToSql.go, strings.Join]
  | cons e2 rest ih =>
    intro i w args
    rw [exprs.AppendToSql.go, ih e2 (i + 1)]
    simp [strings.Join, String.append_assoc, List.append_assoc]

theorem exprs_AppendToSql_eq (es : List expr) (w sep : String) (args : List Value)
    (h : es.length > 0) :
    exprs.AppendToSql es w sep args =
      (w ++ strings.Join (es.map (·.sql)) sep, args ++ (es.map (·.args)).flatten, none) := by
  cases es with
  | nil => simp at h
  | cons e rest =>
    simp [exprs.AppendToSql, exprs_go_cons]

theorem appendToSql_go_cons (sep : String) (p : Sqlizer) (ps : List Sqlizer)
    (hok : ∀ q ∈ p :: ps, q.ToSql.2.2 = none) :
    ∀ (i : Nat) (w : String) (args : List Value),
      appendToSql.go sep i (p :: ps) w args =
        ((if i > 0 then w ++ sep else w) ++ strings.Join ((p :: ps).map (·.ToSql.1)) sep,
          args ++ ((p :: ps).map (·.ToSql.2.1)).flatten, none) := by
  induction ps generalizing p with
  | nil =>
    intro i w args
    have hp : p.ToSql.2.2 = none := hok p (by simp)
    simp [appendToSql.go, strings.Join, hp]
  | cons p2 rest ih =>
    intro i w args
    have hp : p.ToSql.2.2 = none := hok p (by simp)
    have hrest : ∀ q ∈ p2 :: rest, q.ToSql.2.2 = none := fun q hq =>
      hok q (List.mem_cons_of_mem _ hq)
    rw [appendToSql.go]
    simp only [hp]
    rw [ih p2 hrest (i + 1)]
    simp [strings.Join, String.append_assoc, List.append_assoc]

theorem appendToSql_eq (ps : List Sqlizer) (w sep : String) (args : List Value)
    (h : ps.length > 0) (hok : ∀ q ∈ ps, q.ToSql.2.2 = none) :
    appendToSql ps w sep args =
      (w ++ strings.Join (ps.map (·.ToSql.1)) sep, args ++ (ps.map (·.ToSql.2.1)).flatten,
        none) := by
  cases ps with
  | nil => simp at h
  | cons p rest =>
    simp [appendToSql, appendToSql_go_cons sep p rest hok]

/-- A loop that ends without error has met no failing part. -/
theorem appendToSql_go_ok (sep : String) (ps : List Sqlizer) :
    ∀ (i : Nat) (w : String) (args : List Value),
      (appendToSql.go sep i ps w args).2.2 = none → ∀ q ∈ ps, q.ToSql.2.2 = none := by
  induction ps with
  | nil => intro i w args _ q hq; simp at hq
  | cons p rest ih =>
    intro i w args h q hq
    rw [appendToSql.go] at h
    cases hp : p.ToSql.2.2 with
    | some err => simp [hp] at h
    | none =>
      simp only [hp] at h
      rcases List.mem_cons.mp hq with rfl | hq2
      · exact hp
      · exact ih _ _ _ h q hq2

/-- A loop that ends with an error returns no arguments. -/
theorem appendToSql_go_err (sep : String) (ps : List Sqlizer) :
    ∀ (i : Nat) (w : String) (args : List Value) (err : error),
      (appendToSql.go sep i ps w args).2.2 = some err →
        (appendToSql.go sep i ps w args).2.1 = [] ∧ ∃ q ∈ ps, q.ToSql.2.2 = some err := by
  induction ps with
  | nil => intro i w args err h; simp [appendToSql.go] at h
  | cons p rest ih =>
    intro i w args err h
    rw [appendToSql.go] at h ⊢
    cases hp : p.ToSql.2.2 with
    | some e =>
      simp only [hp] at h ⊢
      simp at h
      subst h
      exact ⟨by simp, p, by simp, hp⟩
    | none =>
      simp only [hp] at h ⊢
      obtain ⟨h1, q, hq, hq2⟩ := ih _ _ _ err h
      exact ⟨h1, q, List.mem_cons_of_mem _ hq, hq2⟩

theorem ite_append_clause (c : Prop) [Decidable c] (a k b : String) :
    (if c then a ++ k ++ b else a) = a ++ (if c then k ++ b else "") := by
  by_cases h : c <;> simp [h, String.append_assoc]

/-- The buffer and the arguments after the prefix step (delete.go, lines 39-42). -/
theorem prefix_step (d : deleteData) :
    (if d.Prefixes.length > 0 then
        ((exprs.AppendToSql d.Prefixes "" " " []).1 ++ " ",
          (exprs.AppendToSql d.Prefixes "" " " []).2.1)
      else (("", []) : String × List Value)) =
      ((if d.Prefixes.length > 0 then strings.Join (d.Prefixes.map (·.sql)) " " ++ " " else ""),
        (d.Prefixes.map (·.args)).flatten) := by
  by_cases h : d.Prefixes.length > 0
  · simp [h, exprs_AppendToSql_eq d.Prefixes "" " " [] h]
  · have hnil : d.Prefixes = [] := by
      cases hp : d.Prefixes with
      | nil => rfl
      | cons a l => simp [hp] at h
    simp [hnil]

/-- The buffer and the arguments after the suffix step (delete.go, lines 70-73). -/
theorem suffix_step (d : deleteData) (w : String) (args : List Value) :
    (if d.Suffixes.length > 0 then
        ((exprs.AppendToSql d.Suffixes (w ++ " ") " " args).1,
          (exprs.AppendToSql d.Suffixes (w ++ " ") " " args).2.1)
      else (w, args)) =
      (w ++ (if d.Suffixes.length > 0 then " " ++ strings.Join (d.Suffixes.map (·.sql)) " "
          else ""),
        args ++ (d.Suffixes.map (·.args)).flatten) := by
  by_cases h : d.Suffixes.length > 0
  · simp [h, exprs_AppendToSql_eq d.Suffixes (w ++ " ") " " args h, String.append_assoc]
  · have hnil : d.Suffixes = [] := by
      cases hp : d.Suffixes with
      | nil => rfl
      | cons a l => simp [hp] at h
    simp [hnil]

/-- The buffer, the arguments and the error after the WHERE step when every part renders
(delete.go, lines 47-53). -/
theorem where_step (d : deleteData) (w : String) (args : List Value)
    (hok : ∀ q ∈ d.WhereParts, q.ToSql.2.2 = none) :
    (if d.WhereParts.length > 0 then appendToSql d.WhereParts (w ++ " WHERE ") " AND " args
      else (w, args, none)) =
      (w ++ (if d.WhereParts.length > 0 then
          " WHERE " ++ strings.Join (d.WhereParts.map (·.ToSql.1)) " AND " else ""),
        args ++ (d.WhereParts.map (·.ToSql.2.1)).flatten, none) := by
  by_cases h : d.WhereParts.length > 0
  · simp [h, appendToSql_eq d.WhereParts (w ++ " WHERE ") " AND " args h hok,
      String.append_assoc]
  · have hnil : d.WhereParts = [] := by
      cases hp : d.WhereParts with
      | nil => rfl
      | cons a l => simp [hp] at h
    simp [hnil]

/-- The renderer on a record with a table whose WHERE parts all render: the clause text
goes to the placeholder format, the arguments are those of the fragments in order. -/
theorem ToSql_of_parts_ok (d : deleteData) (hFrom : d.From ≠ "")
    (hok : ∀ q ∈ d.WhereParts, q.ToSql.2.2 = none) :
    d.ToSql = d.PlaceholderFormat.map (fun f =>
      ((f.ReplacePlaceholders (deleteClauseText d)).1, deleteArgList d,
        (f.ReplacePlaceholders (deleteClauseText d)).2)) := by
  have hlen : ¬ d.From.length = 0 := fun h => hFrom ((length_eq_zero_iff _).mp h)
  unfold deleteData.ToSql
  rw [if_neg hlen]
  simp only [prefix_step, where_step d _ _ hok, suffix_step, ite_append_clause]
  unfold deleteClauseText deleteArgList
  cases d.PlaceholderFormat with
  | none => rfl
  | some f => simp [String.append_assoc, List.append_assoc]

/-- The renderer on a record with a table and a failing WHERE part: the error of a part is
returned with an empty SQL string and no arguments. -/
theorem ToSql_of_part_err (d : deleteData) (hFrom : d.From ≠ "")
    (hbad : ¬ ∀ q ∈ d.WhereParts, q.ToSql.2.2 = none) :
    ∃ err, (∃ q ∈ d.WhereParts, q.ToSql.2.2 = some err) ∧ d.ToSql = some ("", [], some err) := by
  have hlen : ¬ d.From.length = 0 := fun h => hFrom ((length_eq_zero_iff _).mp h)
  have hpos : d.WhereParts.length > 0 := by
    cases hp : d.WhereParts with
    | nil => simp [hp] at hbad
    | cons a l => simp
  unfold deleteData.ToSql
  rw [if_neg hlen]
  simp only [prefix_step, if_pos hpos]
  generalize hw : (if d.Prefixes.length > 0 then
      strings.Join (d.Prefixes.map (·.sql)) " " ++ " " else "") ++ "DELETE FROM " ++ d.From
      ++ " WHERE " = w
  generalize (d.Prefixes.map (·.args)).flatten = a0
  cases herr : (appendToSql d.WhereParts w " AND " a0).2.2 with
  | none => exact absurd (appendToSql_go_ok " AND " d.WhereParts 0 w a0 herr) hbad
  | some err =>
    obtain ⟨hargs, hq⟩ := appendToSql_go_err " AND " d.WhereParts 0 w a0 err herr
    refine ⟨err, hq, ?_⟩
    have hargs2 : (appendToSql d.WhereParts w " AND " a0).2.1 = [] := hargs
    simp [hargs2]

/-! ## Markers -/

theorem ite_ne_of {c : Prop} [Decidable c] {a b x : Char} (ha : a ≠ x) (hb : b ≠ x) :
    (if c then a else b) ≠ x := by
  split <;> assumption

theorem digitChar_ne_marker (k : Nat) : Nat.digitChar k ≠ '?' := by
  unfold Nat.digitChar
  repeat (apply ite_ne_of (by decide))
  decide

theorem toDigitsCore_no_marker (b : Nat) : ∀ (f n : Nat) (l : List Char),
    (∀ c ∈ l, c ≠ '?') → ∀ c ∈ Nat.toDigitsCore b f n l, c ≠ '?' := by
  intro f
  induction f with
  | zero => intro n l hl; simpa [Nat.toDigitsCore] using hl
  | succ f ih =>
    intro n l hl
    have hl2 : ∀ c ∈ Nat.digitChar (n % b) :: l, c ≠ '?' := by
      intro c hc
      rcases List.mem_cons.mp hc with rfl | hc2
      · exact digitChar_ne_marker _
      · exact hl c hc2
    rw [Nat.toDigitsCore]
    split
    · exact hl2
    · exact ih _ _ hl2

/-- The decimal representation of a number has no marker. -/
theorem markers_Sprintf_d (n : Nat) : markers (fmt.Sprintf_d n) = 0 := by
  unfold markers fmt.Sprintf_d
  rw [List.count_eq_zero]
  intro hmem
  have hdata : (toString n).data = Nat.toDigits 10 n := rfl
  rw [hdata] at hmem
  exact toDigitsCore_no_marker 10 _ _ [] (by simp) _ hmem rfl

theorem markers_append (a b : String) : markers (a ++ b) = markers a + markers b := by
  simp [markers, String.data_append, List.count_append]

theorem markers_empty : markers "" = 0 := rfl

/-- The markers of a joined text, when the separator has none. -/
theorem markers_Join (sep : String) (hsep : markers sep = 0) :
    ∀ l : List String, markers (strings.Join l sep) = (l.map markers).sum
  | [] => rfl
  | [a] => by simp [strings.Join]
  | a :: b :: rest => by
    have ih := markers_Join sep hsep (b :: rest)
    simp only [strings.Join, markers_append, hsep, ih]
    simp

theorem markers_exprs (es : List expr) (h : ∀ e ∈ es, markers e.sql = e.args.length) :
    ((es.map (·.sql)).map markers).sum = ((es.map (·.args)).flatten).length := by
  induction es with
  | nil => rfl
  | cons e rest ih =>
    have he := h e (by simp)
    have hrest := ih (fun x hx => h x (List.mem_cons_of_mem _ hx))
    simp only [List.map_cons, List.sum_cons, List.flatten_cons, List.length_append, he, hrest]

theorem markers_parts (ps : List Sqlizer)
    (h : ∀ p ∈ ps, markers p.ToSql.1 = p.ToSql.2.1.length) :
    ((ps.map (·.ToSql.1)).map markers).sum = ((ps.map (·.ToSql.2.1)).flatten).length := by
  induction ps with
  | nil => rfl
  | cons p rest ih =>
    have hp := h p (by simp)
    have hrest := ih (fun x hx => h x (List.mem_cons_of_mem _ hx))
    simp only [List.map_cons, List.sum_cons, List.flatten_cons, List.length_append, hp, hrest]

theorem markers_clean (l : List String) (h : ∀ s ∈ l, markers s = 0) :
    (l.map markers).sum = 0 := by
  induction l with
  | nil => rfl
  | cons a rest ih =>
    simp only [List.map_cons, List.sum_cons, h a (by simp),
      ih (fun x hx => h x (List.mem_cons_of_mem _ hx))]

theorem markers_ite (c : Prop) [Decidable c] (a : String) :
    markers (if c then a else "") = if c then markers a else 0 := by
  by_cases h : c <;> simp [h, markers_empty]

theorem ite_length_pos {α : Type} (l : List α) (n : Nat) (h : l = [] → n = 0) :
    (if l.length > 0 then n else 0) = n := by
  cases l with
  | nil => simp [h rfl]
  | cons a rest => simp

/-- On a record whose fragments match their markers, the clause text has as many markers
as the argument list has elements. -/
theorem markers_deleteClauseText (d : deleteData) (h : d.MarkersMatch) :
    markers (deleteClauseText d) = (deleteArgList d).length := by
  obtain ⟨hpre, hfrom, hwh, hob, hlim, hoff, hsuf⟩ := h
  have m1 : markers " " = 0 := by decide
  have m2 : markers "DELETE FROM " = 0 := by decide
  have m3 : markers " WHERE " = 0 := by decide
  have m4 : markers " AND " = 0 := by decide
  have m5 : markers " ORDER BY " = 0 := by decide
  have m6 : markers ", " = 0 := by decide
  have m7 : markers " LIMIT " = 0 := by decide
  have m8 : markers " OFFSET " = 0 := by decide
  unfold deleteClauseText deleteArgList
  simp only [markers_append, markers_ite, markers_Join _ m1, markers_Join _ m4,
    markers_Join _ m6, m1, m2, m3, m5, m7, m8, hfrom, hlim, hoff, markers_exprs _ hpre,
    markers_exprs _ hsuf, markers_parts _ hwh, markers_clean _ hob, List.length_append,
    Nat.zero_add, Nat.add_zero, ite_self]
  rw [ite_length_pos d.Prefixes _ (by intro h0; simp [h0]),
    ite_length_pos d.WhereParts _ (by intro h0; simp [h0]),
    ite_length_pos d.Suffixes _ (by intro h0; simp [h0])]

/-- What a rendering without error tells about the record. -/
theorem ToSql_ok_inv (d : deleteData) (sql : String) (args : List Value)
    (h : d.ToSql = some (sql, args, none)) :
    d.From ≠ "" ∧ (∀ q ∈ d.WhereParts, q.ToSql.2.2 = none) ∧ args = deleteArgList d ∧
      ∃ f, d.PlaceholderFormat = some f ∧
        f.ReplacePlaceholders (deleteClauseText d) = (sql, none) := by
  have hFrom : d.From ≠ "" := by
    intro h0
    have hlen : d.From.length = 0 := (length_eq_zero_iff _).mpr h0
    unfold deleteData.ToSql at h
    rw [if_pos hlen] at h
    simp at h
  have hok : ∀ q ∈ d.WhereParts, q.ToSql.2.2 = none := by
    by_contra hbad
    obtain ⟨e, _, he⟩ := ToSql_of_part_err d hFrom hbad
    rw [he] at h
    simp at h
  refine ⟨hFrom, hok, ?_⟩
  rw [ToSql_of_parts_ok d hFrom hok] at h
  cases hf : d.PlaceholderFormat with
  | none => simp [hf] at h
  | some f =>
    simp [hf] at h
    refine ⟨h.2.1.symm, f, rfl, ?_⟩
    exact Prod.ext h.1 h.2.2

/-! ## Mutators on the store -/

/-- A mutator call does not panic: it overwrites the receiver's variable and returns the
receiver. -/
theorem call_eq (m : Mutation) (b : Ptr) (σ : Store) :
    m.call b σ = some (Function.update σ b (m.apply (σ b)), b) := by
  cases m <;> rfl

theorem chain_eq (ms : List Mutation) (b : Ptr) :
    ∀ σ : Store, Mutation.chain ms b σ =
      some (Function.update σ b (ms.foldl (fun v m => m.apply v) (σ b)), b) := by
  induction ms with
  | nil => intro σ; simp [Mutation.chain]
  | cons m rest ih =>
    intro σ
    rw [Mutation.chain, call_eq]
    simp only []
    rw [ih]
    simp

theorem apply_MarkersMatch (m : Mutation) (v : DeleteBuilder) (hv : v.fields.MarkersMatch)
    (hm : m.MarkersMatch) : (m.apply v).fields.MarkersMatch := by
  obtain ⟨hpre, hfrom, hwh, hob, hlim, hoff, hsuf⟩ := hv
  cases m with
  | PlaceholderFormat f => exact ⟨hpre, hfrom, hwh, hob, hlim, hoff, hsuf⟩
  | RunWith r => exact ⟨hpre, hfrom, hwh, hob, hlim, hoff, hsuf⟩
  | Prefix sql args =>
    refine ⟨?_, hfrom, hwh, hob, hlim, hoff, hsuf⟩
    intro e he
    rcases List.mem_append.mp he with h1 | h1
    · exact hpre e h1
    · rw [List.mem_singleton.mp h1]; exact hm
  | From from_ => exact ⟨hpre, hm, hwh, hob, hlim, hoff, hsuf⟩
  | Where pred args =>
    refine ⟨hpre, hfrom, ?_, hob, hlim, hoff, hsuf⟩
    intro p hp
    rcases List.mem_append.mp hp with h1 | h1
    · exact hwh p h1
    · rw [List.mem_singleton.mp h1]; exact hm
  | OrderBy orderBys =>
    refine ⟨hpre, hfrom, hwh, ?_, hlim, hoff, hsuf⟩
    intro x hx
    rcases List.mem_append.mp hx with h1 | h1
    · exact hob x h1
    · exact hm x h1
  | Limit limit => exact ⟨hpre, hfrom, hwh, hob, markers_Sprintf_d limit, hoff, hsuf⟩
  | Offset offset => exact ⟨hpre, hfrom, hwh, hob, hlim, markers_Sprintf_d offset, hsuf⟩
  | Suffix sql args =>
    refine ⟨hpre, hfrom, hwh, hob, hlim, hoff, ?_⟩
    intro e he
    rcases List.mem_append.mp he with h1 | h1
    · exact hsuf e h1
    · rw [List.mem_singleton.mp h1]; exact hm

theorem foldl_MarkersMatch (ms : List Mutation) (hms : ∀ m ∈ ms, m.MarkersMatch) :
    ∀ v : DeleteBuilder, v.fields.MarkersMatch →
      (ms.foldl (fun v m => m.apply v) v).fields.MarkersMatch := by
  induction ms with
  | nil => intro v hv; exact hv
  | cons m rest ih =>
    intro v hv
    exact ih (fun x hx => hms x (List.mem_cons_of_mem _ hx)) _
      (apply_MarkersMatch m v hv (hms m (by simp)))

theorem zero_MarkersMatch : deleteData.zero.MarkersMatch := by
  refine ⟨?_, rfl, ?_, ?_, rfl, rfl, ?_⟩ <;> intro x hx <;> simp [deleteData.zero] at hx

/-- On a record whose fragments match their markers, a rendering without error under the
`Question` format returns as many arguments as the SQL has markers. -/
theorem ToSql_MarkersMatch (d : deleteData) (hd : d.MarkersMatch)
    (hfmt : d.PlaceholderFormat = some Question) (sql : String) (args : List Value)
    (h : d.ToSql = some (sql, args, none)) : args.length = markers sql := by
  obtain ⟨_, _, hargs, f, hf, hrw⟩ := ToSql_ok_inv d sql args h
  rw [hfmt] at hf
  have hfq : f = Question := (Option.some.inj hf).symm
  subst hfq
  have hsql : deleteClauseText d = sql := congrArg Prod.fst hrw
  rw [hargs, ← hsql, markers_deleteClauseText d hd]

/-! ## The numbered format -/

theorem Dollar_go_append (a : List Char) : ∀ (i : Nat) (b : List Char),
    Dollar.go i (a ++ b) = Dollar.go i a ++ Dollar.go (i + a.count '?') b := by
  induction a with
  | nil => intro i b; simp [Dollar.go]
  | cons c rest ih =>
    intro i b
    by_cases hc : c = '?'
    · subst hc
      have harith : i + 1 + List.count '?' rest = i + (List.count '?' rest + 1) := by omega
      simp [Dollar.go, ih, harith]
    · have hc2 : ('?' == c) = false := by
        simp only [beq_eq_false_iff_ne, ne_eq]
        exact fun h => hc h.symm
      simp [Dollar.go, hc, ih, List.count_cons, hc2]

theorem Dollar_go_DELETE_FROM (i : Nat) :
    Dollar.go i ['D', 'E', 'L', 'E', 'T', 'E', ' ', 'F', 'R', 'O', 'M', ' '] =
      ['D', 'E', 'L', 'E', 'T', 'E', ' ', 'F', 'R', 'O', 'M', ' '] := by
  simp [Dollar.go]

/-- The clause text is the prefix clause, then `DELETE FROM `, then the rest. -/
theorem deleteClauseText_split (d : deleteData) :
    ∃ rest, deleteClauseText d = deletePrefixClause d ++ ("DELETE FROM " ++ rest) := by
  unfold deleteClauseText deletePrefixClause
  simp only [String.append_assoc]
  exact ⟨_, rfl⟩

theorem append_DELETE_FROM_ne_empty (a b : String) : a ++ "DELETE FROM " ++ b ≠ "" := by
  intro h
  have hl := congrArg String.length h
  simp only [String.length_append] at hl
  have h12 : "DELETE FROM ".length = 12 := by decide
  have h0 : "".length = 0 := rfl
  omega

/-! ## The INSERT renderer -/

theorem exprs_prefix_step (es : List expr) :
    (if es.length > 0 then
        ((exprs.AppendToSql es "" " " []).1 ++ " ", (exprs.AppendToSql es "" " " []).2.1)
      else (("", []) : String × List Value)) =
      ((if es.length > 0 then strings.Join (es.map (·.sql)) " " ++ " " else ""),
        (es.map (·.args)).flatten) := by
  by_cases h : es.length > 0
  · simp [h, exprs_AppendToSql_eq es "" " " [] h]
  · have hnil : es = [] := by
      cases es with
      | nil => rfl
      | cons a l => simp at h
    simp [hnil]

theorem exprs_suffix_step (es : List expr) (w : String) (args : List Value) :
    (if es.length > 0 then
        ((exprs.AppendToSql es (w ++ " ") " " args).1,
          (exprs.AppendToSql es (w ++ " ") " " args).2.1)
      else (w, args)) =
      (w ++ (if es.length > 0 then " " ++ strings.Join (es.map (·.sql)) " " else ""),
        args ++ (es.map (·.args)).flatten) := by
  by_cases h : es.length > 0
  · simp [h, exprs_AppendToSql_eq es (w ++ " ") " " args h, String.append_assoc]
  · have hnil : es = [] := by
      cases es with
      | nil => rfl
      | cons a l => simp at h
    simp [hnil]

theorem valueStrings_eq (row : List InsertValue) : ∀ args : List Value,
    insertData.valueStrings row args =
      (row.map InsertValue.text, args ++ (row.map InsertValue.args).flatten) := by
  induction row with
  | nil => intro args; simp [insertData.valueStrings]
  | cons v rest ih =>
    intro args
    cases v with
    | plain x => simp [insertData.valueStrings, ih, InsertValue.text, InsertValue.args]
    | expr e => simp [insertData.valueStrings, ih, InsertValue.text, InsertValue.args]

theorem valuesStrings_eq (rows : List (List InsertValue)) : ∀ args : List Value,
    insertData.valuesStrings rows args =
      (rows.map insertRowText,
        args ++ (rows.map (fun row => (row.map InsertValue.args).flatten)).flatten) := by
  induction rows with
  | nil => intro args; simp [insertData.valuesStrings]
  | cons row rest ih =>
    intro args
    simp [insertData.valuesStrings, ih, valueStrings_eq, insertRowText, List.append_assoc]

theorem eachAfterSpace_eq (a : String) (rest : List String) :
    eachAfterSpace (a :: rest) = " " ++ strings.Join (a :: rest) " " := by
  induction rest generalizing a with
  | nil => simp [eachAfterSpace, strings.Join]
  | cons b l ih =>
    rw [eachAfterSpace, ih b]
    simp [strings.Join, String.append_assoc]

theorem options_step (opts : List String) (w : String) :
    (if opts.length > 0 then w ++ "INSERT " ++ strings.Join opts " " ++ " " else w ++ "INSERT ") =
      w ++ "INSERT" ++ eachAfterSpace opts ++ " " := by
  have hlit : ∀ x : String, "INSERT" ++ (" " ++ x) = "INSERT " ++ x := fun x => by
    rw [← String.append_assoc]
    rfl
  cases opts with
  | nil => simp [eachAfterSpace, hlit, String.append_assoc]
  | cons a rest =>
    rw [eachAfterSpace_eq]
    simp [hlit, String.append_assoc]

theorem columns_step (cols : List String) (w : String) :
    (if cols.length > 0 then w ++ " " ++ "(" ++ strings.Join cols "," ++ ") " else w ++ " ") =
      w ++ (if cols.length > 0 then " (" ++ strings.Join cols "," ++ ")" else "") ++ " " := by
  have h1 : ∀ x : String, " " ++ ("(" ++ x) = " (" ++ x := fun x => by
    rw [← String.append_assoc]
    rfl
  have h2 : ∀ x : String, x ++ ")" ++ " " = x ++ ") " := fun x => by
    rw [String.append_assoc]
    rfl
  by_cases h : cols.length > 0
  · simp only [h, if_true, String.append_assoc, h1]
    simp only [← String.append_assoc, h2]
  · simp [h]

/-- The INSERT renderer on a record with a table, at least one row and no nested SELECT:
the clause text goes to the placeholder format, the arguments are those of the fragments
and values in order. -/
theorem insert_ToSql_of_values (d : insertData) (hInto : d.Into ≠ "") (hVals : d.Values ≠ [])
    (hSel : d.Select = none) :
    d.ToSql = d.PlaceholderFormat.map (fun f =>
      ((f.ReplacePlaceholders (insertClauseText d)).1, insertArgList d,
        (f.ReplacePlaceholders (insertClauseText d)).2)) := by
  have hlen : ¬ d.Into.length = 0 := fun h => hInto ((length_eq_zero_iff _).mp h)
  have hv : ¬ d.Values.length = 0 := fun h => hVals (List.length_eq_zero.mp h)
  have h3 : ∀ x : String, " " ++ ("INTO " ++ x) = " INTO " ++ x := fun x => by
    rw [← String.append_assoc]
    rfl
  have h4 : ∀ x : String, " " ++ ("VALUES " ++ x) = " VALUES " ++ x := fun x => by
    rw [← String.append_assoc]
    rfl
  unfold insertData.ToSql
  rw [if_neg hlen, if_neg (fun h => hv h.1)]
  simp only [hSel, exprs_prefix_step, exprs_suffix_step, valuesStrings_eq, options_step]
  have hcol := columns_step d.Columns
    ((if d.Prefixes.length > 0 then strings.Join (d.Prefixes.map (·.sql)) " " ++ " " else "") ++
      "INSERT" ++ eachAfterSpace d.Options ++ " " ++ "INTO " ++ d.Into)
  simp only [String.append_assoc] at hcol ⊢
  rw [hcol]
  unfold insertClauseText insertArgList
  cases d.PlaceholderFormat with
  | none => rfl
  | some f => simp [h3, h4, String.append_assoc, List.append_assoc]

/-! ## The placeholder rewrite -/

theorem Dollar_go_clean (l : List Char) (h : l.count '?' = 0) : ∀ i : Nat, Dollar.go i l = l := by
  induction l with
  | nil => intro i; rfl
  | cons c rest ih =>
    intro i
    have hc : c ≠ '?' := by
      intro hc
      subst hc
      simp at h
    have hrest : rest.count '?' = 0 := by
      rw [List.count_eq_zero] at h ⊢
      exact fun hm => h (List.mem_cons_of_mem _ hm)
    simp [Dollar.go, hc, ih hrest]

theorem Dollar_go_marked (segs : List String) (hseg : ∀ s ∈ segs, markers s = 0) :
    ∀ (i : Nat) (s0 : String), markers s0 = 0 →
      Dollar.go i (s0.data ++ (marked segs).data) = s0.data ++ (numbered i segs).data := by
  induction segs with
  | nil =>
    intro i s0 h0
    have hm : (marked []).data = [] := rfl
    have hn : (numbered i []).data = [] := rfl
    rw [hm, hn, List.append_nil]
    exact Dollar_go_clean _ h0 i
  | cons s rest ih =>
    intro i s0 h0
    have hs : markers s = 0 := hseg s (by simp)
    have hrest : ∀ x ∈ rest, markers x = 0 := fun x hx => hseg x (List.mem_cons_of_mem _ hx)
    have hm : (marked (s :: rest)).data = '?' :: (s.data ++ (marked rest).data) := by
      simp [marked, String.data_append]
    have hn : (numbered i (s :: rest)).data =
        '$' :: ((toString (i + 1)).data ++ (s.data ++ (numbered (i + 1) rest).data)) := by
      simp [numbered, String.data_append]
    have h0c : List.count '?' s0.data = 0 := h0
    rw [hm, hn, Dollar_go_append, Dollar_go_clean _ h0 i, h0c, Nat.add_zero]
    simp only [Dollar.go, if_true]
    rw [ih hrest (i + 1) s hs]
    simp

/-- Every text is a marker-free piece followed by marked marker-free pieces. -/
theorem marked_decomposition (l : List Char) :
    ∃ (s0 : String) (segs : List String), markers s0 = 0 ∧ (∀ s ∈ segs, markers s = 0) ∧
      String.mk l = s0 ++ marked segs := by
  induction l with
  | nil => exact ⟨"", [], rfl, by simp, rfl⟩
  | cons c rest ih =>
    obtain ⟨s0, segs, h0, hseg, heq⟩ := ih
    have hdata : rest = s0.data ++ (marked segs).data := by
      have := congrArg String.data heq
      simpa [String.data_append] using this
    by_cases hc : c = '?'
    · subst hc
      refine ⟨"", s0 :: segs, rfl, ?_, ?_⟩
      · intro s hs
        rcases List.mem_cons.mp hs with rfl | h1
        · exact h0
        · exact hseg s h1
      · apply String.ext
        simp [marked, String.data_append, hdata]
    · refine ⟨String.mk (c :: s0.data), segs, ?_, hseg, ?_⟩
      · have h0c : List.count '?' s0.data = 0 := h0
        simp [markers, List.count_cons, h0c, hc]
      · apply String.ext
        simp [String.data_append, hdata]

/-- The arguments that the DELETE renderer returns do not depend on the placeholder
format. -/
theorem delete_args_format_free (d : deleteData) (f g : PlaceholderFormat) :
    (({ d with PlaceholderFormat := some f } : deleteData).ToSql).map (fun r => r.2.1) =
      (({ d with PlaceholderFormat := some g } : deleteData).ToSql).map (fun r => r.2.1) := by
  simp only [deleteData.ToSql]
  split
  · rfl
  · split <;> rfl

/-! ## Accumulation, limit and offset -/

theorem update_self (σ : Store) (b : Ptr) (v : DeleteBuilder) (h : v = σ b) :
    Function.update σ b v = σ := by
  subst h
  exact Function.update_eq_self b σ

theorem deleteClauseText_parts (d : deleteData) :
    deleteClauseText d = deleteHeadText d ++
      (if d.Limit.length > 0 then " LIMIT " ++ d.Limit else "") ++
      (if d.Offset.length > 0 then " OFFSET " ++ d.Offset else "") ++ deleteTailText d := by
  unfold deleteClauseText deleteHeadText deleteTailText
  rfl

theorem digitChar_isDigit (k : Nat) (h : k < 10) : (Nat.digitChar k).isDigit = true := by
  interval_cases k <;> rfl

theorem toDigitsCore_isDigit : ∀ (f n : Nat) (l : List Char),
    (∀ c ∈ l, c.isDigit = true) → ∀ c ∈ Nat.toDigitsCore 10 f n l, c.isDigit = true := by
  intro f
  induction f with
  | zero => intro n l hl; simpa [Nat.toDigitsCore] using hl
  | succ f ih =>
    intro n l hl
    have hl2 : ∀ c ∈ Nat.digitChar (n % 10) :: l, c.isDigit = true := by
      intro c hc
      rcases List.mem_cons.mp hc with rfl | hc2
      · exact digitChar_isDigit _ (Nat.mod_lt _ (by decide))
      · exact hl c hc2
    rw [Nat.toDigitsCore]
    split
    · exact hl2
    · exact ih _ _ hl2

theorem toDigitsCore_ne_nil : ∀ (f n : Nat) (l : List Char),
    l ≠ [] → Nat.toDigitsCore 10 f n l ≠ [] := by
  intro f
  induction f with
  | zero => intro n l hl; simpa [Nat.toDigitsCore] using hl
  | succ f ih =>
    intro n l _
    rw [Nat.toDigitsCore]
    split
    · simp
    · exact ih _ _ (by simp)

/-- The decimal text of a number is not empty and consists of digits. -/
theorem Sprintf_d_digits (n : Nat) :
    fmt.Sprintf_d n ≠ "" ∧ (fmt.Sprintf_d n).length > 0 ∧
      ∀ c ∈ (fmt.Sprintf_d n).data, c.isDigit = true := by
  have hdata : (fmt.Sprintf_d n).data = Nat.toDigits 10 n := rfl
  have hne : (fmt.Sprintf_d n).data ≠ [] := by
    rw [hdata]
    unfold Nat.toDigits
    rw [Nat.toDigitsCore]
    split
    · simp
    · exact toDigitsCore_ne_nil _ _ _ (by simp)
  have hne2 : fmt.Sprintf_d n ≠ "" := fun h => hne (by rw [h])
  refine ⟨hne2, ?_, ?_⟩
  · have : (fmt.Sprintf_d n).length ≠ 0 := fun h => hne2 ((length_eq_zero_iff _).mp h)
    omega
  · rw [hdata]
    exact toDigitsCore_isDigit _ _ [] (by simp)

/-- A chain without a call of `Limit` leaves the limit as it was; likewise for `Offset`. -/
theorem foldl_keeps_limit (ms : List Mutation) :
    ∀ v : DeleteBuilder,
      ((∀ m ∈ ms, m.isLimit = false) →
        (ms.foldl (fun v m => m.apply v) v).fields.Limit = v.fields.Limit) ∧
      ((∀ m ∈ ms, m.isOffset = false) →
        (ms.foldl (fun v m => m.apply v) v).fields.Offset = v.fields.Offset) := by
  induction ms with
  | nil => intro v; exact ⟨fun _ => rfl, fun _ => rfl⟩
  | cons m rest ih =>
    intro v
    constructor
    · intro h
      have hm := h m (by simp)
      rw [List.foldl_cons, (ih (m.apply v)).1 (fun x hx => h x (List.mem_cons_of_mem _ hx))]
      cases m <;> first | rfl | simp [Mutation.isLimit] at hm
    · intro h
      have hm := h m (by simp)
      rw [List.foldl_cons, (ih (m.apply v)).2 (fun x hx => h x (List.mem_cons_of_mem _ hx))]
      cases m <;> first | rfl | simp [Mutation.isOffset] at hm

theorem renderChain_eq (ms : List Mutation) :
    renderChain ms =
      some (builder.GetStruct (ms.foldl (fun v m => m.apply v) DeleteBuilder.zero)).ToSql := by
  unfold renderChain
  rw [chain_eq]
  simp [DeleteBuilder.ToSql, Store.zero]

theorem recordAfter_chain (ms : List Mutation) (b : Ptr) (σ : Store) :
    recordAfter (Mutation.chain ms b σ) b =
      builder.GetStruct (ms.foldl (fun v m => m.apply v) (σ b)) := by
  rw [chain_eq]
  simp [recordAfter]

theorem recordAfter_call (m : Mutation) (b : Ptr) (σ : Store) :
    recordAfter (m.call b σ) b = builder.GetStruct (m.apply (σ b)) := by
  rw [call_eq]
  simp [recordAfter]

/-! ## Rendering twice -/

/-- With parts that render the same in every state, the loop returns the same buffer,
arguments and error in every state. -/
theorem stateful_go_env_free {W : Type} (sep : String) (ps : List (stateful.Sqlizer W))
    (hdet : ∀ p ∈ ps, p.Deterministic) :
    ∀ (i : Nat) (w : String) (args : List Value) (e1 e2 : W),
      (stateful.appendToSql.go sep i ps w args e1).2 =
        (stateful.appendToSql.go sep i ps w args e2).2 := by
  induction ps with
  | nil => intro i w args e1 e2; rfl
  | cons p rest ih =>
    intro i w args e1 e2
    have hp : (p.ToSql e1).2 = (p.ToSql e2).2 := hdet p (by simp) e1 e2
    have hrest : ∀ q ∈ rest, q.Deterministic := fun q hq => hdet q (List.mem_cons_of_mem _ hq)
    rw [stateful.appendToSql.go, stateful.appendToSql.go, hp]
    cases (p.ToSql e2).2.2.2 with
    | some err => rfl
    | none => exact ih hrest _ _ _ _ _

theorem stateful_format_env_free {W : Type} (f : stateful.PlaceholderFormat W)
    (hfd : f.Deterministic) (sql : String) (args : List Value) (w1 w2 : W) :
    Option.map Prod.snd (some ((f.ReplacePlaceholders sql w1).1,
        ((f.ReplacePlaceholders sql w1).2.1, args, (f.ReplacePlaceholders sql w1).2.2))) =
      Option.map Prod.snd (some ((f.ReplacePlaceholders sql w2).1,
        ((f.ReplacePlaceholders sql w2).2.1, args, (f.ReplacePlaceholders sql w2).2.2))) := by
  simp only [Option.map_some', hfd sql w1 w2]

/-- With collaborators that render the same in every state, the renderer returns the same
triple, or panics, in every state. -/
theorem stateful_ToSql_env_free {W : Type} (d : stateful.deleteData W) (hdet : d.Deterministic)
    (e1 e2 : W) : (d.ToSql e1).map Prod.snd = (d.ToSql e2).map Prod.snd := by
  unfold stateful.deleteData.ToSql
  by_cases hlen : d.From.length = 0
  · rw [if_pos hlen, if_pos hlen]
    rfl
  · rw [if_neg hlen, if_neg hlen]
    simp only []
    generalize hpre : (if d.Prefixes.length > 0 then
        ((exprs.AppendToSql d.Prefixes "" " " []).1 ++ " ",
          (exprs.AppendToSql d.Prefixes "" " " []).2.1)
      else (("", []) : String × List Value)) = pre
    have hwh : ∀ e1 e2 : W,
        (if d.WhereParts.length > 0 then
          stateful.appendToSql d.WhereParts (pre.1 ++ "DELETE FROM " ++ d.From ++ " WHERE ")
            " AND " pre.2 e1
          else (e1, (pre.1 ++ "DELETE FROM " ++ d.From, pre.2, none))).2 =
        (if d.WhereParts.length > 0 then
          stateful.appendToSql d.WhereParts (pre.1 ++ "DELETE FROM " ++ d.From ++ " WHERE ")
            " AND " pre.2 e2
          else (e2, (pre.1 ++ "DELETE FROM " ++ d.From, pre.2, none))).2 := by
      intro a1 a2
      by_cases hw : d.WhereParts.length > 0
      · rw [if_pos hw, if_pos hw]
        exact stateful_go_env_free " AND " d.WhereParts hdet.1 0 _ _ a1 a2
      · rw [if_neg hw, if_neg hw]
    generalize hX1 : (if d.WhereParts.length > 0 then
        stateful.appendToSql d.WhereParts (pre.1 ++ "DELETE FROM " ++ d.From ++ " WHERE ")
          " AND " pre.2 e1
        else (e1, (pre.1 ++ "DELETE FROM " ++ d.From, pre.2, none))) = X1
    generalize hX2 : (if d.WhereParts.length > 0 then
        stateful.appendToSql d.WhereParts (pre.1 ++ "DELETE FROM " ++ d.From ++ " WHERE ")
          " AND " pre.2 e2
        else (e2, (pre.1 ++ "DELETE FROM " ++ d.From, pre.2, none))) = X2
    have hX : X1.2 = X2.2 := by
      rw [← hX1, ← hX2]
      exact hwh e1 e2
    obtain ⟨w1, r1⟩ := X1
    obtain ⟨w2, r2⟩ := X2
    simp only at hX
    subst hX
    cases r1.2.2 with
    | some err => rfl
    | none =>
      simp only []
      cases hf : d.PlaceholderFormat with
      | none => rfl
      | some f =>
        exact stateful_format_env_free f (hdet.2 f hf) _ _ w1 w2

/-- The loop on parts without state is the loop `appendToSql.go`, the state being left as
it is. -/
theorem withState_go {W : Type} (sep : String) (ps : List Sqlizer) :
    ∀ (i : Nat) (w : String) (args : List Value) (env : W),
      stateful.appendToSql.go sep i (ps.map Sqlizer.withState) w args env =
        (env, appendToSql.go sep i ps w args) := by
  induction ps with
  | nil => intro i w args env; rfl
  | cons p rest ih =>
    intro i w args env
    rw [List.map_cons, stateful.appendToSql.go, appendToSql.go]
    simp only [Sqlizer.withState]
    cases p.ToSql.2.2 with
    | some err => rfl
    | none => exact ih _ _ _ _

/-- On a record whose collaborators have no state the renderer returns what
`deleteData.ToSql` returns and leaves the state as it is. -/
theorem withState_ToSql {W : Type} (d : deleteData) (env : W) :
    (d.withState : stateful.deleteData W).ToSql env = d.ToSql.map (fun r => (env, r)) := by
  unfold stateful.deleteData.ToSql deleteData.ToSql
  by_cases hlen : d.From.length = 0
  · have hlen2 : (d.withState : stateful.deleteData W).From.length = 0 := hlen
    rw [if_pos hlen, if_pos hlen2]
    rfl
  · have hlen2 : ¬ (d.withState : stateful.deleteData W).From.length = 0 := hlen
    rw [if_neg hlen, if_neg hlen2]
    simp only [deleteData.withState, List.length_map, stateful.appendToSql, withState_go,
      appendToSql]
    by_cases hw : d.WhereParts.length > 0
    · simp only [if_pos hw]
      cases appendToSql.go " AND " 0 d.WhereParts _ _ |>.2.2 with
      | some err => rfl
      | none =>
        simp only []
        cases d.PlaceholderFormat with
        | none => rfl
        | some f => rfl
    · simp only [if_neg hw]
      cases d.PlaceholderFormat with
      | none => rfl
      | some f => rfl

/-- A record whose collaborators have no state renders the same in every state. -/
theorem withState_Deterministic {W : Type} (d : deleteData) :
    (d.withState : stateful.deleteData W).Deterministic := by
  constructor
  · intro p hp e1 e2
    simp only [deleteData.withState, List.mem_map] at hp
    obtain ⟨q, _, rfl⟩ := hp
    rfl
  · intro f hf sql e1 e2
    simp only [deleteData.withState, Option.map_eq_some'] at hf
    obtain ⟨g, _, rfl⟩ := hf
    rfl

/-! ## The claims -/

/-- C1: for a delete record with a non-empty From whose WHERE parts all render without
error, the text that `deleteData.ToSql` hands to the placeholder rewrite is exactly the
clause text of the specification (prefixes and a space, `DELETE FROM` and the table,
WHERE with the parts joined by AND, ORDER BY, LIMIT, OFFSET, a space and the suffixes,
each only when its field is non-empty), whatever the placeholder format is. -/
theorem deleteData_ToSql_clause_order (d : deleteData) (hFrom : d.From ≠ "")
    (hok : ∀ q ∈ d.WhereParts, q.ToSql.2.2 = none) :
    d.ToSql = d.PlaceholderFormat.map (fun f =>
      ((f.ReplacePlaceholders (deleteClauseText d)).1, deleteArgList d,
        (f.ReplacePlaceholders (deleteClauseText d)).2)) :=
  ToSql_of_parts_ok d hFrom hok

/-- Witness of C1 on a record with every clause present. -/
theorem deleteData_ToSql_clause_order_witness :
    sampleFull.From ≠ "" ∧ (∀ q ∈ sampleFull.WhereParts, q.ToSql.2.2 = none) ∧
    sampleFull.ToSql = some
      ("WITH t AS ? DELETE FROM users WHERE id = ? AND name = ? ORDER BY id, name DESC LIMIT 10 OFFSET 20 RETURNING ?",
        [Value.int 0, Value.int 5, Value.str "bob", Value.int 7], none) :=
  ⟨by decide, by decide,
    (deleteData_ToSql_clause_order sampleFull (by decide) (by decide)).trans (by decide)⟩

/-- C2: a delete record whose From is the empty string renders, whatever its other
fields, to the missing-table error with an empty SQL string and no arguments; and on a
record with a non-empty From the missing-table return is not taken: any error returned is
the error of one of the record's WHERE parts or the error that the record's placeholder
format returned for the clause text, so the missing-table error is not returned unless
one of these collaborators produced it. -/
theorem deleteData_ToSql_missing_table (d : deleteData) :
    ({ d with From := "" } : deleteData).ToSql = some ("", [], some error.deleteNoFrom) ∧
    (d.From ≠ "" → ∀ sql args err, d.ToSql = some (sql, args, some err) →
      ((∃ q ∈ d.WhereParts, q.ToSql.2.2 = some err) ∨
        (∃ f, d.PlaceholderFormat = some f ∧
          (f.ReplacePlaceholders (deleteClauseText d)).2 = some err)) ∧
      ((∀ q ∈ d.WhereParts, q.ToSql.2.2 ≠ some error.deleteNoFrom) →
        (∀ f, d.PlaceholderFormat = some f →
          (f.ReplacePlaceholders (deleteClauseText d)).2 ≠ some error.deleteNoFrom) →
        err ≠ error.deleteNoFrom)) := by
  refine ⟨rfl, ?_⟩
  intro hFrom sql args err h
  have key : (∃ q ∈ d.WhereParts, q.ToSql.2.2 = some err) ∨
      (∃ f, d.PlaceholderFormat = some f ∧
        (f.ReplacePlaceholders (deleteClauseText d)).2 = some err) := by
    by_cases hok : ∀ q ∈ d.WhereParts, q.ToSql.2.2 = none
    · right
      rw [ToSql_of_parts_ok d hFrom hok] at h
      cases hf : d.PlaceholderFormat with
      | none => simp [hf] at h
      | some f =>
        refine ⟨f, rfl, ?_⟩
        simp [hf] at h
        exact h.2.2
    · left
      obtain ⟨e, hq, he⟩ := ToSql_of_part_err d hFrom hok
      rw [he] at h
      simp at h
      rw [← h.2.2]
      exact hq
  refine ⟨key, ?_⟩
  intro hparts hfmt hcontra
  subst hcontra
  rcases key with ⟨q, hq, hq2⟩ | ⟨f, hf, hf2⟩
  · exact hparts q hq hq2
  · exact hfmt f hf hf2

/-- Witness of C2: a record with a table and a failing WHERE part returns the part's
error, not the missing-table error. -/
theorem deleteData_ToSql_missing_table_witness :
    sampleBadPart.ToSql = some ("", [], some (error.other "bad predicate")) ∧
    error.other "bad predicate" ≠ error.deleteNoFrom :=
  ⟨by decide,
    ((deleteData_ToSql_missing_table sampleBadPart).2
      (by decide) "" [] (error.other "bad predicate") (by decide)).2
      (by decide) (by intro f hf; exact absurd hf (by simp [sampleBadPart, deleteData.zero]))⟩

/-- C3: for every delete record that renders without error, the returned argument list is
the arguments of the prefixes, then those of the WHERE parts, then those of the suffixes,
each in its given order; and the delete on table `users` with the single predicate
`Where("id = ?", 5)` under the `Question` format renders to
`DELETE FROM users WHERE id = ?` with the arguments `[5]`. -/
theorem deleteData_ToSql_args_order (d : deleteData) (sql : String) (args : List Value)
    (h : d.ToSql = some (sql, args, none)) :
    args = (d.Prefixes.map (·.args)).flatten ++ (d.WhereParts.map (·.ToSql.2.1)).flatten ++
        (d.Suffixes.map (·.args)).flatten ∧
    renderChain sampleDeleteUsers =
      some (some ("DELETE FROM users WHERE id = ?", [Value.int 5], none)) :=
  ⟨(ToSql_ok_inv d sql args h).2.2.1, by decide⟩

/-- Witness of C3 on the record with every clause present. -/
theorem deleteData_ToSql_args_order_witness :
    sampleFull.ToSql = some
      ("WITH t AS ? DELETE FROM users WHERE id = ? AND name = ? ORDER BY id, name DESC LIMIT 10 OFFSET 20 RETURNING ?",
        [Value.int 0, Value.int 5, Value.str "bob", Value.int 7], none) ∧
    [Value.int 0, Value.int 5, Value.str "bob", Value.int 7] =
      (sampleFull.Prefixes.map (·.args)).flatten ++
        (sampleFull.WhereParts.map (·.ToSql.2.1)).flatten ++
        (sampleFull.Suffixes.map (·.args)).flatten :=
  ⟨by decide,
    (deleteData_ToSql_args_order sampleFull
      "WITH t AS ? DELETE FROM users WHERE id = ? AND name = ? ORDER BY id, name DESC LIMIT 10 OFFSET 20 RETURNING ?"
      [Value.int 0, Value.int 5, Value.str "bob", Value.int 7] (by decide)).1⟩

/-- C4, as stated, fails: a predicate with a marker and no argument, and a table name with
a marker, each render without error to a text with one marker and no argument. -/
theorem DeleteBuilder_args_markers_counterexample :
    renderChain sampleNoArg = some (some ("DELETE FROM users WHERE id = ?", [], none)) ∧
    ([] : List Value).length ≠ markers "DELETE FROM users WHERE id = ?" ∧
    renderChain sampleMarkerInFrom = some (some ("DELETE FROM a?", [], none)) ∧
    ([] : List Value).length ≠ markers "DELETE FROM a?" :=
  ⟨by decide, by decide, by decide, by decide⟩

/-- C4, amended: for every delete statement built on an empty builder by mutator calls in
which every `Prefix`, `Where` and `Suffix` fragment has as many arguments as its SQL has
markers and the `From` and `OrderBy` strings have no marker, and which renders without
error under the `Question` format, the length of the returned argument list equals the
number of markers in the returned SQL text. -/
theorem DeleteBuilder_args_match_markers (ms : List Mutation) (b b' : Ptr) (σ σ' : Store)
    (sql : String) (args : List Value)
    (hzero : σ b = DeleteBuilder.zero)
    (hms : ∀ m ∈ ms, m.MarkersMatch)
    (hchain : Mutation.chain ms b σ = some (σ', b'))
    (hfmt : (builder.GetStruct (σ' b')).PlaceholderFormat = some Question)
    (hren : (DeleteBuilder.ToSql b' σ').2 = some (sql, args, none)) :
    args.length = markers sql := by
  rw [chain_eq] at hchain
  obtain ⟨hσ, hb⟩ := Prod.mk.inj (Option.some.inj hchain)
  subst hb
  have hmm : (builder.GetStruct (σ' b)).MarkersMatch := by
    rw [← hσ]
    simp only [Function.update_same, builder.GetStruct]
    rw [hzero]
    exact foldl_MarkersMatch ms hms _ zero_MarkersMatch
  exact ToSql_MarkersMatch _ hmm hfmt sql args hren

/-- Witness of amended C4 on a chain with three arguments and three markers. -/
theorem DeleteBuilder_args_match_markers_witness :
    renderChain sampleMatched = some (some
      ("WITH t AS ? DELETE FROM users WHERE id = ? OR id = ? ORDER BY id LIMIT 10 OFFSET 0 RETURNING id",
        [Value.int 0, Value.int 5, Value.int 6], none)) ∧
    [Value.int 0, Value.int 5, Value.int 6].length = markers
      "WITH t AS ? DELETE FROM users WHERE id = ? OR id = ? ORDER BY id LIMIT 10 OFFSET 0 RETURNING id" :=
  ⟨by decide,
    DeleteBuilder_args_match_markers sampleMatched 0 0 Store.zero
      (Function.update Store.zero 0
        (sampleMatched.foldl (fun (v : DeleteBuilder) (m : Mutation) => m.apply v) (Store.zero 0)))
      "WITH t AS ? DELETE FROM users WHERE id = ? OR id = ? ORDER BY id LIMIT 10 OFFSET 0 RETURNING id"
      [Value.int 0, Value.int 5, Value.int 6] rfl
      (by
        intro m hm
        simp only [sampleMatched, List.mem_cons, List.mem_singleton, List.not_mem_nil,
          or_false] at hm
        rcases hm with rfl | rfl | rfl | rfl | rfl | rfl | rfl | rfl
        · trivial
        · show markers "users" = 0
          decide
        · show markers "WITH t AS ?" = 1
          decide
        · show markers "id = ? OR id = ?" = 2
          decide
        · intro x hx
          rw [List.mem_singleton.mp hx]
          decide
        · trivial
        · trivial
        · show markers "RETURNING id" = 0
          decide)
      (chain_eq sampleMatched 0 Store.zero) (by rfl) (by decide)⟩

/-- C5, as stated, fails: `From("b")` called on the builder at address 0, which rendered
`DELETE FROM a`, makes that same builder render `DELETE FROM b`. -/
theorem DeleteBuilder_mutator_alters_receiver :
    (DeleteBuilder.ToSql 0 sampleStore).2 = some ("DELETE FROM a", [], none) ∧
    ((Mutation.From "b").call 0 sampleStore).map (fun r => (DeleteBuilder.ToSql 0 r.1).2) =
      some (some ("DELETE FROM b", [], none)) :=
  ⟨by decide, by decide⟩

/-- C5, amended: a mutator call (PlaceholderFormat, RunWith, Prefix, From, Where, OrderBy,
Limit, Offset, Suffix) overwrites the builder variable it is called on and returns that
same variable; it alters no other builder variable: every other builder, such as a copy
of the receiver taken before the call, holds the same value and renders to the same SQL,
arguments and error after the call as before. -/
theorem DeleteBuilder_mutator_frame (m : Mutation) (b c b' : Ptr) (σ σ' : Store)
    (hcall : m.call b σ = some (σ', b')) (hne : c ≠ b) :
    b' = b ∧ σ' c = σ c ∧ (DeleteBuilder.ToSql c σ').2 = (DeleteBuilder.ToSql c σ).2 := by
  rw [call_eq] at hcall
  obtain ⟨hσ, hb⟩ := Prod.mk.inj (Option.some.inj hcall)
  have hc : σ' c = σ c := by
    rw [← hσ]
    exact Function.update_noteq hne _ _
  refine ⟨hb.symm, hc, ?_⟩
  simp only [DeleteBuilder.ToSql, hc]

/-- Witness of amended C5: after `From("b")` on the builder at address 0, the copy at
address 1 still renders `DELETE FROM a`. -/
theorem DeleteBuilder_mutator_frame_witness :
    (DeleteBuilder.ToSql 1 sampleStore).2 = some ("DELETE FROM a", [], none) ∧
    (DeleteBuilder.ToSql 1
      (Function.update sampleStore 0 ((Mutation.From "b").apply (sampleStore 0)))).2 =
      (DeleteBuilder.ToSql 1 sampleStore).2 :=
  ⟨by decide,
    (DeleteBuilder_mutator_frame (Mutation.From "b") 0 1 0 sampleStore
      (Function.update sampleStore 0 ((Mutation.From "b").apply (sampleStore 0)))
      (call_eq _ _ _) (by decide)).2.2⟩

/-- C10, as stated, fails: on a builder whose predicate is the equality map `{a: 1, b: 2}`
two consecutive calls of `ToSql`, the second in the state that the first left, return
different SQL strings and different argument lists. -/
theorem DeleteBuilder_ToSql_rerender_counterexample :
    (stateful.DeleteBuilder.ToSql 0 sampleEqMapStore 0).2 =
      some (1, ("DELETE FROM t WHERE a = ? AND b = ?", [Value.int 1, Value.int 2], none)) ∧
    (stateful.DeleteBuilder.ToSql 0 (stateful.DeleteBuilder.ToSql 0 sampleEqMapStore 0).1 1).2 =
      some (2, ("DELETE FROM t WHERE b = ? AND a = ?", [Value.int 2, Value.int 1], none)) ∧
    "DELETE FROM t WHERE a = ? AND b = ?" ≠ "DELETE FROM t WHERE b = ? AND a = ?" ∧
    [Value.int 1, Value.int 2] ≠ [Value.int 2, Value.int 1] :=
  ⟨by decide, by decide, by decide, by decide⟩

/-- C10, amended: `DeleteBuilder.ToSql` leaves the store of builders, hence the record of
the builder it is called on, unchanged; and when the WHERE parts and the placeholder
format of the builder render the same result on every call, a second call of `ToSql`, made
in the state that the first call left and with no call in between, returns the same SQL
string, the same argument list and the same error as the first. Raw fragments and
expressions and formats without state are such collaborators, and on them the renderer
returns what `deleteData.ToSql` returns. -/
theorem DeleteBuilder_ToSql_rerender {W : Type} (b : Ptr) (σ : stateful.Store W) (env env1 : W)
    (r1 : String × List Value × Option error) (d : deleteData)
    (hdet : (stateful.builder.GetStruct (σ b)).Deterministic)
    (hfirst : (stateful.DeleteBuilder.ToSql b σ env).2 = some (env1, r1)) :
    (stateful.DeleteBuilder.ToSql b σ env).1 = σ ∧
    stateful.builder.GetStruct ((stateful.DeleteBuilder.ToSql b σ env).1 b) =
      stateful.builder.GetStruct (σ b) ∧
    (∃ env2, (stateful.DeleteBuilder.ToSql b (stateful.DeleteBuilder.ToSql b σ env).1 env1).2 =
      some (env2, r1)) ∧
    (d.withState : stateful.deleteData W).Deterministic ∧
    (d.withState : stateful.deleteData W).ToSql env = d.ToSql.map (fun r => (env, r)) := by
  refine ⟨rfl, rfl, ?_, withState_Deterministic d, withState_ToSql d env⟩
  have hfree := stateful_ToSql_env_free (stateful.builder.GetStruct (σ b)) hdet env env1
  have h1 : (stateful.builder.GetStruct (σ b)).ToSql env = some (env1, r1) := hfirst
  rw [h1] at hfree
  show ∃ env2, (stateful.builder.GetStruct (σ b)).ToSql env1 = some (env2, r1)
  cases h2 : (stateful.builder.GetStruct (σ b)).ToSql env1 with
  | none => simp [h2] at hfree
  | some x =>
    rw [h2] at hfree
    simp only [Option.map_some', Option.some.injEq] at hfree
    exact ⟨x.1, by rw [hfree]⟩

/-- Witness of amended C10 on the builder of the record with every clause, whose parts
are raw fragments: the second call, in the state 7 that the first is given and leaves,
returns the same triple. -/
theorem DeleteBuilder_ToSql_rerender_witness :
    (stateful.DeleteBuilder.ToSql 0 sampleFullStore 7).2 = some (7,
      ("WITH t AS ? DELETE FROM users WHERE id = ? AND name = ? ORDER BY id, name DESC LIMIT 10 OFFSET 20 RETURNING ?",
        [Value.int 0, Value.int 5, Value.str "bob", Value.int 7], none)) ∧
    (∃ env2, (stateful.DeleteBuilder.ToSql 0
        (stateful.DeleteBuilder.ToSql 0 sampleFullStore 7).1 7).2 = some (env2,
      ("WITH t AS ? DELETE FROM users WHERE id = ? AND name = ? ORDER BY id, name DESC LIMIT 10 OFFSET 20 RETURNING ?",
        [Value.int 0, Value.int 5, Value.str "bob", Value.int 7], none))) :=
  ⟨by decide,
    (DeleteBuilder_ToSql_rerender 0 sampleFullStore 7 7
      ("WITH t AS ? DELETE FROM users WHERE id = ? AND name = ? ORDER BY id, name DESC LIMIT 10 OFFSET 20 RETURNING ?",
        [Value.int 0, Value.int 5, Value.str "bob", Value.int 7], none)
      sampleFull (withState_Deterministic sampleFull) (by decide)).2.2.1⟩

/-- C6: with no runner configured every run operation returns `RunnerNotSet` and runs
nothing: `deleteData.Exec` returns `(nil, RunnerNotSet)`, `updateData.ExecContext` and
`updateData.QueryContext` return `(nil, RunnerNotSet)`, `updateData.QueryRowContext`
returns a row whose error is `RunnerNotSet`; the world is left as it was, whatever the
other fields of the record are and whatever the functions that would run the statement
do, so the runner check comes before any rendering. -/
theorem run_without_runner {W Ctx Result Rows Scanner Rest : Type}
    (d : deleteData) (u : updateData Rest) (ctx : Ctx) (w : W)
    (ExecWith : BaseRunner → deleteData → W → W × Option Result × Option error)
    (ExecContextWith : Ctx → BaseRunner → updateData Rest → W → W × Option Result × Option error)
    (QueryContextWith : Ctx → BaseRunner → updateData Rest → W → W × Option Rows × Option error)
    (QueryRowContextWith : Ctx → BaseRunner → updateData Rest → W → W × Row Scanner)
    (hd : d.RunWith = none) (hu : u.RunWith = none) :
    deleteData.Exec ExecWith d w = (w, none, some error.RunnerNotSet) ∧
    updateData.ExecContext ExecContextWith u ctx w = (w, none, some error.RunnerNotSet) ∧
    updateData.QueryContext QueryContextWith u ctx w = (w, none, some error.RunnerNotSet) ∧
    (updateData.QueryRowContext QueryRowContextWith u ctx w).1 = w ∧
    (updateData.QueryRowContext QueryRowContextWith u ctx w).2.err = some error.RunnerNotSet ∧
    (updateData.QueryRowContext QueryRowContextWith u ctx w).2.RowScanner = none := by
  simp [deleteData.Exec, updateData.ExecContext, updateData.QueryContext,
    updateData.QueryRowContext, hd, hu]

/-- Witness of C6 on the zero delete record, which has no table and would not render, and
on an update record without runner. -/
theorem run_without_runner_witness :
    deleteData.zero.ToSql = some ("", [], some error.deleteNoFrom) ∧
    deleteData.Exec (sampleRun ()) deleteData.zero 0 = (0, none, some error.RunnerNotSet) ∧
    updateData.ExecContext sampleRun sampleUpdateNoRunner () 0 =
      (0, none, some error.RunnerNotSet) :=
  ⟨by decide,
    (run_without_runner deleteData.zero sampleUpdateNoRunner () 0 (sampleRun ()) sampleRun
      sampleRun sampleRunRow rfl rfl).1,
    (run_without_runner deleteData.zero sampleUpdateNoRunner () 0 (sampleRun ()) sampleRun
      sampleRun sampleRunRow rfl rfl).2.1⟩

/-- C7: `updateData.ExecContext` has three outcomes decided by the runner alone. It
returns `(nil, RunnerNotSet)` without running anything, whatever `ExecContextWith` does,
exactly when `RunWith` is nil; `(nil, NoContextSupport)` without running anything exactly
when `RunWith` is set and does not implement `ExecerContext`; and the result of
`ExecContextWith(ctx, runner, d)`, with the caller's `ctx`, exactly when `RunWith` is
the runner and implements `ExecerContext`. `updateData.QueryContext` does the same with
`QueryerContext` and `QueryContextWith`. -/
theorem context_run_outcomes {W Ctx Result Rows Rest : Type}
    (d : updateData Rest) (ctx : Ctx) (w : W) (r : BaseRunner) :
    ((∀ E : Ctx → BaseRunner → updateData Rest → W → W × Option Result × Option error,
        updateData.ExecContext E d ctx w = (w, none, some error.RunnerNotSet)) ↔
      d.RunWith = none) ∧
    ((∀ E : Ctx → BaseRunner → updateData Rest → W → W × Option Result × Option error,
        updateData.ExecContext E d ctx w = (w, none, some error.NoContextSupport)) ↔
      ∃ r0, d.RunWith = some r0 ∧ r0.ExecerContext = false) ∧
    ((∀ E : Ctx → BaseRunner → updateData Rest → W → W × Option Result × Option error,
        updateData.ExecContext E d ctx w = E ctx r d w) ↔
      (d.RunWith = some r ∧ r.ExecerContext = true)) ∧
    ((∀ Q : Ctx → BaseRunner → updateData Rest → W → W × Option Rows × Option error,
        updateData.QueryContext Q d ctx w = (w, none, some error.RunnerNotSet)) ↔
      d.RunWith = none) ∧
    ((∀ Q : Ctx → BaseRunner → updateData Rest → W → W × Option Rows × Option error,
        updateData.QueryContext Q d ctx w = (w, none, some error.NoContextSupport)) ↔
      ∃ r0, d.RunWith = some r0 ∧ r0.QueryerContext = false) ∧
    ((∀ Q : Ctx → BaseRunner → updateData Rest → W → W × Option Rows × Option error,
        updateData.QueryContext Q d ctx w = Q ctx r d w) ↔
      (d.RunWith = some r ∧ r.QueryerContext = true)) := by
  refine ⟨?_, ?_, ?_, ?_, ?_, ?_⟩
  · constructor
    · intro h
      cases hr : d.RunWith with
      | none => rfl
      | some r0 =>
        have h1 := h (fun _ _ _ w0 => (w0, none, none))
        cases hc : r0.ExecerContext <;> simp [updateData.ExecContext, hr, hc] at h1
    · intro hr E
      simp [updateData.ExecContext, hr]
  · constructor
    · intro h
      cases hr : d.RunWith with
      | none =>
        have h1 := h (fun _ _ _ w0 => (w0, none, none))
        simp [updateData.ExecContext, hr] at h1
      | some r0 =>
        have h1 := h (fun _ _ _ w0 => (w0, none, none))
        cases hc : r0.ExecerContext
        · exact ⟨r0, rfl, hc⟩
        · simp [updateData.ExecContext, hr, hc] at h1
    · rintro ⟨r0, hr, hc⟩ E
      simp [updateData.ExecContext, hr, hc]
  · constructor
    · intro h
      have h1 := h (fun _ r0 _ w0 => (w0, none, if r0 = r then none else some (error.other "")))
      cases hr : d.RunWith with
      | none => simp [updateData.ExecContext, hr] at h1
      | some r0 =>
        cases hc : r0.ExecerContext
        · simp [updateData.ExecContext, hr, hc] at h1
        · simp [updateData.ExecContext, hr, hc] at h1
          subst h1
          exact ⟨rfl, hc⟩
    · rintro ⟨hr, hc⟩ E
      simp [updateData.ExecContext, hr, hc]
  · constructor
    · intro h
      cases hr : d.RunWith with
      | none => rfl
      | some r0 =>
        have h1 := h (fun _ _ _ w0 => (w0, none, none))
        cases hc : r0.QueryerContext <;> simp [updateData.QueryContext, hr, hc] at h1
    · intro hr Q
      simp [updateData.QueryContext, hr]
  · constructor
    · intro h
      cases hr : d.RunWith with
      | none =>
        have h1 := h (fun _ _ _ w0 => (w0, none, none))
        simp [updateData.QueryContext, hr] at h1
      | some r0 =>
        have h1 := h (fun _ _ _ w0 => (w0, none, none))
        cases hc : r0.QueryerContext
        · exact ⟨r0, rfl, hc⟩
        · simp [updateData.QueryContext, hr, hc] at h1
    · rintro ⟨r0, hr, hc⟩ Q
      simp [updateData.QueryContext, hr, hc]
  · constructor
    · intro h
      have h1 := h (fun _ r0 _ w0 => (w0, none, if r0 = r then none else some (error.other "")))
      cases hr : d.RunWith with
      | none => simp [updateData.QueryContext, hr] at h1
      | some r0 =>
        cases hc : r0.QueryerContext
        · simp [updateData.QueryContext, hr, hc] at h1
        · simp [updateData.QueryContext, hr, hc] at h1
          subst h1
          exact ⟨rfl, hc⟩
    · rintro ⟨hr, hc⟩ Q
      simp [updateData.QueryContext, hr, hc]

/-- Witness of C7: a runner that implements `QueryerContext` only gives
`NoContextSupport` on `ExecContext` with nothing run, and the result of the delegate on
`QueryContext`; a runner that implements `ExecerContext` only does the converse. -/
theorem context_run_outcomes_witness :
    updateData.ExecContext sampleRun sampleUpdateNoRunner () 0 =
      (0, none, some error.RunnerNotSet) ∧
    updateData.ExecContext sampleRun sampleUpdateQueryOnly () 0 =
      (0, none, some error.NoContextSupport) ∧
    updateData.ExecContext sampleRun sampleUpdateExecOnly () 0 = (1, some 1, none) ∧
    updateData.QueryContext sampleRun sampleUpdateExecOnly () 0 =
      (0, none, some error.NoContextSupport) ∧
    updateData.QueryContext sampleRun sampleUpdateQueryOnly () 0 = (1, some 2, none) :=
  ⟨(@context_run_outcomes Nat Unit Nat Nat Unit sampleUpdateNoRunner () 0 sampleExecOnly).1.mpr
      rfl sampleRun,
    (@context_run_outcomes Nat Unit Nat Nat Unit sampleUpdateQueryOnly () 0
      sampleExecOnly).2.1.mpr ⟨sampleQueryOnly, rfl, rfl⟩ sampleRun,
    (@context_run_outcomes Nat Unit Nat Nat Unit sampleUpdateExecOnly () 0
      sampleExecOnly).2.2.1.mpr ⟨rfl, rfl⟩ sampleRun,
    (@context_run_outcomes Nat Unit Nat Nat Unit sampleUpdateExecOnly () 0
      sampleExecOnly).2.2.2.2.1.mpr ⟨sampleExecOnly, rfl, rfl⟩ sampleRun,
    (@context_run_outcomes Nat Unit Nat Nat Unit sampleUpdateQueryOnly () 0
      sampleQueryOnly).2.2.2.2.2.mpr ⟨rfl, rfl⟩ sampleRun⟩

/-- C8: `updateData.QueryRowContext` has four outcomes. It returns, without running
anything and whatever `QueryRowContextWith` does, a row with error `RunnerNotSet` exactly
when `RunWith` is nil; a row with error `RunnerNotQueryRunner` exactly when the runner is
set and implements neither `QueryRowerContext` nor `QueryerContext`; a row with error
`NoContextSupport` exactly when the runner is set, does not implement `QueryRowerContext`
and implements `QueryerContext`; and the result of `QueryRowContextWith(ctx, runner, d)`
exactly when `RunWith` is the runner and implements `QueryRowerContext`, whether or not
it implements `QueryerContext`. -/
theorem query_row_outcomes {W Ctx Scanner Rest : Type}
    (d : updateData Rest) (ctx : Ctx) (w : W) (r : BaseRunner) :
    ((∀ Q : Ctx → BaseRunner → updateData Rest → W → W × Row Scanner,
        updateData.QueryRowContext Q d ctx w =
          (w, { RowScanner := none, err := some error.RunnerNotSet })) ↔
      d.RunWith = none) ∧
    ((∀ Q : Ctx → BaseRunner → updateData Rest → W → W × Row Scanner,
        updateData.QueryRowContext Q d ctx w =
          (w, { RowScanner := none, err := some error.RunnerNotQueryRunner })) ↔
      ∃ r0, d.RunWith = some r0 ∧ r0.QueryRowerContext = false ∧ r0.QueryerContext = false) ∧
    ((∀ Q : Ctx → BaseRunner → updateData Rest → W → W × Row Scanner,
        updateData.QueryRowContext Q d ctx w =
          (w, { RowScanner := none, err := some error.NoContextSupport })) ↔
      ∃ r0, d.RunWith = some r0 ∧ r0.QueryRowerContext = false ∧ r0.QueryerContext = true) ∧
    ((∀ Q : Ctx → BaseRunner → updateData Rest → W → W × Row Scanner,
        updateData.QueryRowContext Q d ctx w = Q ctx r d w) ↔
      (d.RunWith = some r ∧ r.QueryRowerContext = true)) := by
  refine ⟨?_, ?_, ?_, ?_⟩
  · constructor
    · intro h
      cases hr : d.RunWith with
      | none => rfl
      | some r0 =>
        have h1 := h (fun _ _ _ w0 => (w0, { RowScanner := none, err := none }))
        cases hc : r0.QueryRowerContext <;> cases hq : r0.QueryerContext <;>
          simp [updateData.QueryRowContext, hr, hc, hq] at h1
    · intro hr Q
      simp [updateData.QueryRowContext, hr]
  · constructor
    · intro h
      have h1 := h (fun _ _ _ w0 => (w0, { RowScanner := none, err := none }))
      cases hr : d.RunWith with
      | none => simp [updateData.QueryRowContext, hr] at h1
      | some r0 =>
        cases hc : r0.QueryRowerContext <;> cases hq : r0.QueryerContext <;>
          simp [updateData.QueryRowContext, hr, hc, hq] at h1
        exact ⟨r0, rfl, hc, hq⟩
    · rintro ⟨r0, hr, hc, hq⟩ Q
      simp [updateData.QueryRowContext, hr, hc, hq]
  · constructor
    · intro h
      have h1 := h (fun _ _ _ w0 => (w0, { RowScanner := none, err := none }))
      cases hr : d.RunWith with
      | none => simp [updateData.QueryRowContext, hr] at h1
      | some r0 =>
        cases hc : r0.QueryRowerContext <;> cases hq : r0.QueryerContext <;>
          simp [updateData.QueryRowContext, hr, hc, hq] at h1
        exact ⟨r0, rfl, hc, hq⟩
    · rintro ⟨r0, hr, hc, hq⟩ Q
      simp [updateData.QueryRowContext, hr, hc, hq]
  · constructor
    · intro h
      have h1 := h (fun _ r0 _ w0 =>
        (w0, { RowScanner := none, err := if r0 = r then none else some (error.other "") }))
      cases hr : d.RunWith with
      | none => simp [updateData.QueryRowContext, hr] at h1
      | some r0 =>
        cases hc : r0.QueryRowerContext <;> cases hq : r0.QueryerContext <;>
          simp [updateData.QueryRowContext, hr, hc, hq] at h1
        all_goals
          subst h1
          exact ⟨rfl, hc⟩
    · rintro ⟨hr, hc⟩ Q
      simp [updateData.QueryRowContext, hr, hc]

/-- Witness of C8 on the four kinds of runner. -/
theorem query_row_outcomes_witness :
    updateData.QueryRowContext sampleRunRow sampleUpdateNoRunner () 0 =
      (0, { RowScanner := none, err := some error.RunnerNotSet }) ∧
    updateData.QueryRowContext sampleRunRow sampleUpdateExecOnly () 0 =
      (0, { RowScanner := none, err := some error.RunnerNotQueryRunner }) ∧
    updateData.QueryRowContext sampleRunRow sampleUpdateQueryOnly () 0 =
      (0, { RowScanner := none, err := some error.NoContextSupport }) ∧
    updateData.QueryRowContext sampleRunRow sampleUpdateQueryRowOnly () 0 =
      (1, { RowScanner := some 3, err := none }) :=
  ⟨(@query_row_outcomes Nat Unit Nat Unit sampleUpdateNoRunner () 0 sampleExecOnly).1.mpr
      rfl sampleRunRow,
    (@query_row_outcomes Nat Unit Nat Unit sampleUpdateExecOnly () 0 sampleExecOnly).2.1.mpr
      ⟨sampleExecOnly, rfl, rfl, rfl⟩ sampleRunRow,
    (@query_row_outcomes Nat Unit Nat Unit sampleUpdateQueryOnly () 0 sampleExecOnly).2.2.1.mpr
      ⟨sampleQueryOnly, rfl, rfl, rfl⟩ sampleRunRow,
    (@query_row_outcomes Nat Unit Nat Unit sampleUpdateQueryRowOnly () 0
      sampleQueryRowOnly).2.2.2.mpr ⟨rfl, rfl⟩ sampleRunRow⟩

/-- C9, as stated, fails: when the placeholder rewrite fails the arguments collected so
far are returned with the error, and a rewrite that returns the empty text without error
makes the renderer return an empty SQL string without error. -/
theorem deleteData_ToSql_all_or_nothing_counterexample :
    sampleFailingRewrite.ToSql =
      some ("", [Value.int 5], some (error.other "unsupported placeholder")) ∧
    [Value.int 5] ≠ ([] : List Value) ∧
    sampleBlankRewrite.ToSql = some ("", [], none) :=
  ⟨by decide, by decide, by decide⟩

/-- C9, amended: when the table is missing or a WHERE part fails to render,
`deleteData.ToSql` returns an error with an empty SQL string and an empty argument list
(nothing is promised on the SQL string and the arguments returned with the error of a
failing placeholder rewrite); and whenever it returns no error under the `Question` or the
`Dollar` format, the SQL string is non-empty and is the rewritten prefix clause followed
by `DELETE FROM ` and the rest of the statement. -/
theorem deleteData_ToSql_all_or_nothing (d : deleteData) (sql : String) (args : List Value) :
    ((d.From = "" ∨ ∃ q ∈ d.WhereParts, q.ToSql.2.2 ≠ none) →
      ∃ err, d.ToSql = some ("", [], some err)) ∧
    (d.ToSql = some (sql, args, none) →
      (d.PlaceholderFormat = some Question ∨ d.PlaceholderFormat = some Dollar) →
      sql ≠ "" ∧ ∃ f rest, d.PlaceholderFormat = some f ∧
        sql = (f.ReplacePlaceholders (deletePrefixClause d)).1 ++ "DELETE FROM " ++ rest) := by
  constructor
  · intro h
    by_cases hFrom : d.From = ""
    · refine ⟨error.deleteNoFrom, ?_⟩
      have hlen : d.From.length = 0 := (length_eq_zero_iff _).mpr hFrom
      unfold deleteData.ToSql
      rw [if_pos hlen]
    · have hbad : ¬ ∀ q ∈ d.WhereParts, q.ToSql.2.2 = none := by
        rcases h with h0 | ⟨q, hq, hq2⟩
        · exact absurd h0 hFrom
        · exact fun hall => hq2 (hall q hq)
      obtain ⟨err, _, he⟩ := ToSql_of_part_err d hFrom hbad
      exact ⟨err, he⟩
  · intro h hfmt
    obtain ⟨_, _, _, f, hf, hrw⟩ := ToSql_ok_inv d sql args h
    obtain ⟨rest, hsplit⟩ := deleteClauseText_split d
    have hsql : (f.ReplacePlaceholders (deleteClauseText d)).1 = sql := congrArg Prod.fst hrw
    rcases hfmt with hq | hdl
    · have hfq : f = Question := by
        rw [hq] at hf
        exact (Option.some.inj hf).symm
      subst hfq
      have hs : sql = deletePrefixClause d ++ "DELETE FROM " ++ rest := by
        rw [← hsql, hsplit]
        simp [Question, String.append_assoc]
      exact ⟨hs ▸ append_DELETE_FROM_ne_empty _ _, Question, rest, hq, hs⟩
    · have hfd : f = Dollar := by
        rw [hdl] at hf
        exact (Option.some.inj hf).symm
      subst hfd
      have hs : sql = (Dollar.ReplacePlaceholders (deletePrefixClause d)).1 ++ "DELETE FROM " ++
          String.mk (Dollar.go (0 + (deletePrefixClause d).data.count '?' +
            "DELETE FROM ".data.count '?') rest.data) := by
        rw [← hsql, hsplit]
        apply String.ext
        simp only [Dollar, String.data_append, Dollar_go_append, Dollar_go_DELETE_FROM,
          List.append_assoc]
      exact ⟨hs ▸ append_DELETE_FROM_ne_empty _ _, Dollar, _, hdl, hs⟩

/-- Witness of amended C9: a failing WHERE part gives an empty SQL string and no
arguments; the full record under the `Dollar` format gives a non-empty SQL string. -/
theorem deleteData_ToSql_all_or_nothing_witness :
    (∃ err, sampleBadPart.ToSql = some ("", [], some err)) ∧
    sampleFullDollar.ToSql = some
      ("WITH t AS $1 DELETE FROM users WHERE id = $2 AND name = $3 ORDER BY id, name DESC LIMIT 10 OFFSET 20 RETURNING $4",
        [Value.int 0, Value.int 5, Value.str "bob", Value.int 7], none) ∧
    "WITH t AS $1 DELETE FROM users WHERE id = $2 AND name = $3 ORDER BY id, name DESC LIMIT 10 OFFSET 20 RETURNING $4" ≠ "" :=
  ⟨(deleteData_ToSql_all_or_nothing sampleBadPart "" []).1
      (Or.inr ⟨{ ToSql := ("", [], some (error.other "bad predicate")) }, by
        simp [sampleBadPart], by simp⟩),
    by decide,
    ((deleteData_ToSql_all_or_nothing sampleFullDollar
      "WITH t AS $1 DELETE FROM users WHERE id = $2 AND name = $3 ORDER BY id, name DESC LIMIT 10 OFFSET 20 RETURNING $4"
      [Value.int 0, Value.int 5, Value.str "bob", Value.int 7]).2 (by decide)
        (Or.inr rfl)).1⟩


/-- C11: an INSERT statement with a missing required field fails to render: for every
insert builder whose target table is the empty string, even with values, and for every
insert builder with neither a values row nor a select source, `ToSql` returns an error,
with an empty SQL string and no arguments. -/
theorem insert_missing_required_field (b : InsertBuilder)
    (h : b.fields.Into = "" ∨ (b.fields.Values = [] ∧ b.fields.Select = none)) :
    ∃ err, b.ToSql = some ("", [], some err) := by
  unfold InsertBuilder.ToSql insertData.ToSql
  by_cases hInto : b.fields.Into = ""
  · have hlen : b.fields.Into.length = 0 := (length_eq_zero_iff _).mpr hInto
    rw [if_pos hlen]
    exact ⟨_, rfl⟩
  · have hlen : ¬ b.fields.Into.length = 0 := fun h0 => hInto ((length_eq_zero_iff _).mp h0)
    rcases h with h1 | ⟨hv, hs⟩
    · exact absurd h1 hInto
    · have hcond : b.fields.Values.length = 0 ∧ b.fields.Select.isNone = true := by
        simp [hv, hs]
      rw [if_neg hlen, if_pos hcond]
      exact ⟨_, rfl⟩

/-- Witness of C11 on the two builders of `TestInsertBuilderToSqlErr`:
`Insert("").Values(1)` and `Insert("x")`. -/
theorem insert_missing_required_field_witness :
    (∃ err, sampleInsertNoTable.ToSql = some ("", [], some err)) ∧
    (∃ err, (Insert "x").ToSql = some ("", [], some err)) ∧
    sampleInsertNoTable.fields.Values ≠ [] :=
  ⟨insert_missing_required_field sampleInsertNoTable (Or.inl rfl),
    insert_missing_required_field (Insert "x") (Or.inr ⟨rfl, rfl⟩), by decide⟩

/-- C12, as stated, fails: a builder with a table and a values row that also has a select
source renders the nested SELECT in the place of the VALUES clause, and the value of the
row is not among the arguments. -/
theorem insert_values_with_select_counterexample :
    sampleInsertValuesAndSelect.fields.Into ≠ "" ∧
    sampleInsertValuesAndSelect.fields.Values = [[InsertValue.plain (Value.int 1)]] ∧
    sampleInsertValuesAndSelect.ToSql = some ("INSERT INTO t SELECT 1", [], none) ∧
    insertClauseText sampleInsertValuesAndSelect.fields = "INSERT INTO t VALUES (?)" ∧
    insertArgList sampleInsertValuesAndSelect.fields = [Value.int 1] :=
  ⟨by decide, by decide, by decide, by decide, by decide⟩

/-- C12, amended: for every insert builder with a non-empty table, at least one values row
and no select source, `ToSql` hands to the placeholder format the clause text of the claim
(prefixes and a space, `INSERT`, options each preceded by a space, ` INTO ` and the table,
the column list in parentheses joined by `,`, ` VALUES ` and the parenthesised rows joined
by `,`, a space and the suffixes) and returns the arguments in left-to-right order of the
text, a plain value being one marker and one argument, a raw fragment its own SQL and
arguments; and the builder of `TestInsertBuilderToSql` renders to the text and the
arguments that the test expects. -/
theorem insert_ToSql_clause_order (b : InsertBuilder) (hInto : b.fields.Into ≠ "")
    (hVals : b.fields.Values ≠ []) (hSel : b.fields.Select = none) :
    b.ToSql = b.fields.PlaceholderFormat.map (fun f =>
      ((f.ReplacePlaceholders (insertClauseText b.fields)).1, insertArgList b.fields,
        (f.ReplacePlaceholders (insertClauseText b.fields)).2)) ∧
    sampleInsertTest.ToSql = some
      ("WITH prefix AS ? INSERT DELAYED IGNORE INTO a (b,c) VALUES (?,?),(?,? + 1) RETURNING ?",
        [Value.int 0, Value.int 1, Value.int 2, Value.int 3, Value.int 4, Value.int 5], none) :=
  ⟨insert_ToSql_of_values b.fields hInto hVals hSel, by decide⟩

/-- Witness of amended C12 on the builder of `TestInsertBuilderToSql`: the clause text and the
argument list of the claim are those that the test expects. -/
theorem insert_ToSql_clause_order_witness :
    sampleInsertTest.ToSql = some
      ((Question.ReplacePlaceholders (insertClauseText sampleInsertTest.fields)).1,
        insertArgList sampleInsertTest.fields,
        (Question.ReplacePlaceholders (insertClauseText sampleInsertTest.fields)).2) ∧
    insertClauseText sampleInsertTest.fields =
      "WITH prefix AS ? INSERT DELAYED IGNORE INTO a (b,c) VALUES (?,?),(?,? + 1) RETURNING ?" ∧
    insertArgList sampleInsertTest.fields =
      [Value.int 0, Value.int 1, Value.int 2, Value.int 3, Value.int 4, Value.int 5] :=
  ⟨(insert_ToSql_clause_order sampleInsertTest (by decide) (by decide) rfl).1, by decide,
    by decide⟩

/-- C13: the placeholder rewrite that ends the rendering returns, under the `Question`
format, the text unchanged; under the `Dollar` format it replaces the k-th marker of the
text, counting from 1, by `$k` and leaves every other character in place (every text
being a marker-free piece followed by marked marker-free pieces); the argument list
of a rendering does not depend on the format; and `Insert("test").Values(1, 2)` renders to
`INSERT INTO test VALUES (?,?)` under `Question` and to `INSERT INTO test VALUES ($1,$2)`
under `Dollar`, with the same arguments. -/
theorem placeholder_rewrite (sql s0 : String) (segs : List String) (d : deleteData)
    (f g : PlaceholderFormat)
    (h0 : markers s0 = 0) (hseg : ∀ s ∈ segs, markers s = 0) :
    Question.ReplacePlaceholders sql = (sql, none) ∧
    Dollar.ReplacePlaceholders (s0 ++ marked segs) = (s0 ++ numbered 0 segs, none) ∧
    (∃ (t0 : String) (ts : List String), markers t0 = 0 ∧ (∀ t ∈ ts, markers t = 0) ∧
      sql = t0 ++ marked ts) ∧
    (({ d with PlaceholderFormat := some f } : deleteData).ToSql).map (fun r => r.2.1) =
      (({ d with PlaceholderFormat := some g } : deleteData).ToSql).map (fun r => r.2.1) ∧
    (sampleInsertPlaceholders.PlaceholderFormat (some Question)).ToSql =
      some ("INSERT INTO test VALUES (?,?)", [Value.int 1, Value.int 2], none) ∧
    (sampleInsertPlaceholders.PlaceholderFormat (some Dollar)).ToSql =
      some ("INSERT INTO test VALUES ($1,$2)", [Value.int 1, Value.int 2], none) := by
  refine ⟨rfl, ?_, ?_, delete_args_format_free d f g, by decide, by decide⟩
  · have hgo := Dollar_go_marked segs hseg 0 s0 h0
    apply Prod.ext
    · apply String.ext
      simp only [Dollar, String.data_append]
      exact hgo
    · rfl
  · obtain ⟨t0, ts, ht0, hts, heq⟩ := marked_decomposition sql.data
    exact ⟨t0, ts, ht0, hts, heq⟩

/-- Witness of C13 on the text `a = ? AND b = ?`. -/
theorem placeholder_rewrite_witness :
    Dollar.ReplacePlaceholders ("a = " ++ marked [" AND b = ", ""]) =
      ("a = " ++ numbered 0 [" AND b = ", ""], none) ∧
    "a = " ++ marked [" AND b = ", ""] = "a = ? AND b = ?" ∧
    "a = " ++ numbered 0 [" AND b = ", ""] = "a = $1 AND b = $2" :=
  ⟨(placeholder_rewrite "a = ? AND b = ?" "a = " [" AND b = ", ""] sampleFull Question Dollar
      (by decide) (by decide)).2.1,
    by decide, by decide⟩

/-- C14: a mutator call applies its change to the builder it is called on and returns
that same builder: the call returns, its result is the receiver, the receiver holds the
changed value, and rendering the receiver after the call gives the same SQL, arguments
and error as rendering the returned builder. -/
theorem DeleteBuilder_mutator_in_place (m : Mutation) (b r : Ptr) (σ σ1 : Store)
    (hcall : m.call b σ = some (σ1, r)) :
    m.call b σ ≠ none ∧ r = b ∧ σ1 b = m.apply (σ b) ∧
    (DeleteBuilder.ToSql b σ1).2 = (DeleteBuilder.ToSql r σ1).2 ∧
    (DeleteBuilder.ToSql b σ1).2 = (builder.GetStruct (m.apply (σ b))).ToSql := by
  have hne : m.call b σ ≠ none := by rw [hcall]; simp
  rw [call_eq] at hcall
  obtain ⟨hσ, hb⟩ := Prod.mk.inj (Option.some.inj hcall)
  subst hb
  have hval : σ1 b = m.apply (σ b) := by
    rw [← hσ]
    exact Function.update_same _ _ _
  refine ⟨hne, rfl, hval, rfl, ?_⟩
  simp only [DeleteBuilder.ToSql, hval]

/-- Witness of C14: after `Where("id = ?", 5)` is called on the builder at address 0 and
its result discarded, that builder renders the predicate. -/
theorem DeleteBuilder_mutator_in_place_witness :
    (DeleteBuilder.ToSql 0 sampleStore).2 = some ("DELETE FROM a", [], none) ∧
    (DeleteBuilder.ToSql 0 (Function.update sampleStore 0
      ((Mutation.Where (Pred.sql "id = ?") [Value.int 5]).apply (sampleStore 0)))).2 =
      some ("DELETE FROM a WHERE id = ?", [Value.int 5], none) :=
  ⟨by decide,
    (DeleteBuilder_mutator_in_place (Mutation.Where (Pred.sql "id = ?") [Value.int 5]) 0 0
      sampleStore _ (call_eq _ _ _)).2.2.2.2.trans (by decide)⟩

/-- C15: each mutator returns the receiver and changes at most one field of its record:
`PlaceholderFormat` only PlaceholderFormat, `RunWith` only RunWith, `Prefix` only Prefixes,
`From` only From, `Where` only WhereParts, `OrderBy` only OrderBys, `Limit` only Limit,
`Offset` only Offset, `Suffix` only Suffixes; the setters store a value that depends on
the argument alone (the table, the decimal text of the limit and of the offset, the
format), so a second call of a setter overrides the first. -/
theorem DeleteBuilder_mutator_one_field (b : Ptr) (σ : Store)
    (f f2 : Option PlaceholderFormat) (runner : Option BaseRunner) (sql : String)
    (args : List Value) (from_ from2 : String) (pred : Pred) (orderBys : List String)
    (n n2 : Nat) :
    changesOnly Field.PlaceholderFormat (DeleteBuilder.PlaceholderFormat b f σ) b σ ∧
    changesOnly Field.RunWith (DeleteBuilder.RunWith b runner σ) b σ ∧
    changesOnly Field.Prefixes (DeleteBuilder.Prefix b sql args σ) b σ ∧
    changesOnly Field.From (DeleteBuilder.From b from_ σ) b σ ∧
    changesOnly Field.WhereParts (DeleteBuilder.Where b pred args σ) b σ ∧
    changesOnly Field.OrderBys (DeleteBuilder.OrderBy b orderBys σ) b σ ∧
    changesOnly Field.Limit (DeleteBuilder.Limit b n σ) b σ ∧
    changesOnly Field.Offset (DeleteBuilder.Offset b n σ) b σ ∧
    changesOnly Field.Suffixes (DeleteBuilder.Suffix b sql args σ) b σ ∧
    (recordAfter (DeleteBuilder.From b from_ σ) b).From = from_ ∧
    (recordAfter (DeleteBuilder.Limit b n σ) b).Limit = fmt.Sprintf_d n ∧
    (recordAfter (DeleteBuilder.Offset b n σ) b).Offset = fmt.Sprintf_d n ∧
    (recordAfter (DeleteBuilder.PlaceholderFormat b f σ) b).PlaceholderFormat = f ∧
    Mutation.chain [Mutation.From from_, Mutation.From from2] b σ =
      Mutation.chain [Mutation.From from2] b σ ∧
    Mutation.chain [Mutation.Limit n, Mutation.Limit n2] b σ =
      Mutation.chain [Mutation.Limit n2] b σ ∧
    Mutation.chain [Mutation.Offset n, Mutation.Offset n2] b σ =
      Mutation.chain [Mutation.Offset n2] b σ ∧
    Mutation.chain [Mutation.PlaceholderFormat f, Mutation.PlaceholderFormat f2] b σ =
      Mutation.chain [Mutation.PlaceholderFormat f2] b σ := by
  have hco : ∀ (fld : Field) (m : Mutation),
      deleteData.agreeOff fld (builder.GetStruct (σ b)) (builder.GetStruct (m.apply (σ b))) →
      changesOnly fld (m.call b σ) b σ := by
    intro fld m h
    refine ⟨_, call_eq m b σ, ?_⟩
    rw [Function.update_same]
    exact h
  have hra : ∀ m : Mutation, recordAfter (m.call b σ) b = builder.GetStruct (m.apply (σ b)) := by
    intro m
    rw [call_eq]
    simp [recordAfter]
  refine ⟨hco _ (Mutation.PlaceholderFormat f) ?_, hco _ (Mutation.RunWith runner) ?_,
    hco _ (Mutation.Prefix sql args) ?_, hco _ (Mutation.From from_) ?_,
    hco _ (Mutation.Where pred args) ?_, hco _ (Mutation.OrderBy orderBys) ?_,
    hco _ (Mutation.Limit n) ?_, hco _ (Mutation.Offset n) ?_,
    hco _ (Mutation.Suffix sql args) ?_,
    congrArg deleteData.From (hra (Mutation.From from_)),
    congrArg deleteData.Limit (hra (Mutation.Limit n)),
    congrArg deleteData.Offset (hra (Mutation.Offset n)),
    congrArg deleteData.PlaceholderFormat (hra (Mutation.PlaceholderFormat f)),
    ?_, ?_, ?_, ?_⟩
  all_goals first
    | (simp only [deleteData.agreeOff, builder.GetStruct, Mutation.apply]
       simp)
    | (simp only [chain_eq, List.foldl, Mutation.apply])

/-- C16: the list-valued clauses accumulate in call order. `OrderBy(xs)` followed by
`OrderBy(ys)` leaves the store that a single `OrderBy(xs ++ ys)` leaves, and `OrderBy`
with no argument leaves the store unchanged; `Where(p1)` followed by `Where(p2)` makes the
WHERE parts the previous ones followed by `p1`, `p2`, and likewise `Prefix` and `Suffix`;
on a builder with a table, two predicates render as `WHERE p1 AND p2`, two prefixes and
two suffixes render joined by a space, the arguments of the first before those of the
second. -/
theorem DeleteBuilder_clauses_accumulate (b : Ptr) (σ : Store) (xs ys : List String)
    (p1 p2 : Pred) (a1 a2 : List Value) (s1 s2 t : String) (ht : t ≠ "") :
    Mutation.chain [Mutation.OrderBy xs, Mutation.OrderBy ys] b σ =
      Mutation.chain [Mutation.OrderBy (xs ++ ys)] b σ ∧
    Mutation.chain [Mutation.OrderBy []] b σ = some (σ, b) ∧
    (recordAfter (Mutation.chain [Mutation.Where p1 a1, Mutation.Where p2 a2] b σ) b).WhereParts =
      (builder.GetStruct (σ b)).WhereParts ++ [newWherePart p1 a1, newWherePart p2 a2] ∧
    (recordAfter (Mutation.chain [Mutation.Prefix s1 a1, Mutation.Prefix s2 a2] b σ) b).Prefixes =
      (builder.GetStruct (σ b)).Prefixes ++ [Expr s1 a1, Expr s2 a2] ∧
    (recordAfter (Mutation.chain [Mutation.Suffix s1 a1, Mutation.Suffix s2 a2] b σ) b).Suffixes =
      (builder.GetStruct (σ b)).Suffixes ++ [Expr s1 a1, Expr s2 a2] ∧
    renderChain [Mutation.PlaceholderFormat (some Question), Mutation.From t,
        Mutation.Where (Pred.sql s1) a1, Mutation.Where (Pred.sql s2) a2] =
      some (some ("DELETE FROM " ++ t ++ " WHERE " ++ s1 ++ " AND " ++ s2, a1 ++ a2, none)) ∧
    renderChain [Mutation.PlaceholderFormat (some Question), Mutation.From t,
        Mutation.Prefix s1 a1, Mutation.Prefix s2 a2] =
      some (some (s1 ++ " " ++ s2 ++ " DELETE FROM " ++ t, a1 ++ a2, none)) ∧
    renderChain [Mutation.PlaceholderFormat (some Question), Mutation.From t,
        Mutation.Suffix s1 a1, Mutation.Suffix s2 a2] =
      some (some ("DELETE FROM " ++ t ++ " " ++ s1 ++ " " ++ s2, a1 ++ a2, none)) := by
  refine ⟨?_, ?_, ?_, ?_, ?_, ?_, ?_, ?_⟩
  · simp only [chain_eq, List.foldl, Mutation.apply, List.append_assoc]
  · rw [chain_eq]
    simp only [List.foldl, Mutation.apply, List.append_nil]
    rw [update_self σ b _ rfl]
  · rw [recordAfter_chain]
    simp [Mutation.apply, builder.GetStruct]
  · rw [recordAfter_chain]
    simp [Mutation.apply, builder.GetStruct]
  · rw [recordAfter_chain]
    simp [Mutation.apply, builder.GetStruct]
  · rw [renderChain_eq, ToSql_of_parts_ok _ ht (by
      intro q hq
      simp [Mutation.apply, builder.GetStruct, DeleteBuilder.zero, deleteData.zero,
        newWherePart] at hq
      rcases hq with rfl | rfl <;> rfl)]
    simp [Mutation.apply, builder.GetStruct, DeleteBuilder.zero, deleteData.zero,
      deleteClauseText, deleteArgList, newWherePart, strings.Join, Question,
      String.append_assoc]
  · have hlit : ∀ x : String, " " ++ ("DELETE FROM " ++ x) = " DELETE FROM " ++ x := fun x => by
      rw [← String.append_assoc]
      rfl
    rw [renderChain_eq, ToSql_of_parts_ok _ ht (by
      intro q hq
      simp [Mutation.apply, builder.GetStruct, DeleteBuilder.zero, deleteData.zero] at hq)]
    simp [Mutation.apply, builder.GetStruct, DeleteBuilder.zero, deleteData.zero,
      deleteClauseText, deleteArgList, Expr, strings.Join, Question, String.append_assoc, hlit]
  · rw [renderChain_eq, ToSql_of_parts_ok _ ht (by
      intro q hq
      simp [Mutation.apply, builder.GetStruct, DeleteBuilder.zero, deleteData.zero] at hq)]
    simp [Mutation.apply, builder.GetStruct, DeleteBuilder.zero, deleteData.zero,
      deleteClauseText, deleteArgList, Expr, strings.Join, Question, String.append_assoc]

/-- Witness of C16 on the table `users` and the predicates `id > ?` and `age < ?`. -/
theorem DeleteBuilder_clauses_accumulate_witness :
    renderChain [Mutation.PlaceholderFormat (some Question), Mutation.From "users",
        Mutation.Where (Pred.sql "id > ?") [Value.int 5],
        Mutation.Where (Pred.sql "age < ?") [Value.int 30]] =
      some (some ("DELETE FROM users WHERE id > ? AND age < ?",
        [Value.int 5, Value.int 30], none)) ∧
    renderChain [Mutation.PlaceholderFormat (some Question), Mutation.From "users",
        Mutation.OrderBy ["id"], Mutation.OrderBy ["age DESC"]] =
      some (some ("DELETE FROM users ORDER BY id, age DESC", [], none)) :=
  ⟨((DeleteBuilder_clauses_accumulate 0 Store.zero ["id"] ["age DESC"] (Pred.sql "id > ?")
      (Pred.sql "age < ?") [Value.int 5] [Value.int 30] "id > ?" "age < ?" "users"
      (by decide)).2.2.2.2.2.1).trans (by decide),
    by decide⟩

/-- C17: `Limit(n)` stores the decimal text of `n`, which is never empty and consists of
digits, so a statement with a table renders ` LIMIT ` followed by that text after the
ORDER BY clause, also for `n = 0`; `Offset(m)` does the same with ` OFFSET `, also when
no limit is set; a record whose limit (offset) is empty renders no LIMIT (OFFSET) clause,
and the limit (offset) of a builder made from the empty builder without a call of `Limit`
(`Offset`) is empty. -/
theorem DeleteBuilder_limit_offset (d : deleteData) (n m : Nat) (b : Ptr) (σ : Store)
    (ms : List Mutation) (hFrom : d.From ≠ "")
    (hok : ∀ q ∈ d.WhereParts, q.ToSql.2.2 = none) :
    (fmt.Sprintf_d n ≠ "" ∧ ∀ c ∈ (fmt.Sprintf_d n).data, c.isDigit = true) ∧
    (recordAfter (DeleteBuilder.Limit b n σ) b).Limit = fmt.Sprintf_d n ∧
    (recordAfter (DeleteBuilder.Offset b m σ) b).Offset = fmt.Sprintf_d m ∧
    ({ d with Limit := fmt.Sprintf_d n } : deleteData).ToSql =
      d.PlaceholderFormat.map (fun f =>
        ((f.ReplacePlaceholders (deleteHeadText d ++ (" LIMIT " ++ fmt.Sprintf_d n) ++
            (if d.Offset.length > 0 then " OFFSET " ++ d.Offset else "") ++
            deleteTailText d)).1,
          deleteArgList d,
          (f.ReplacePlaceholders (deleteHeadText d ++ (" LIMIT " ++ fmt.Sprintf_d n) ++
            (if d.Offset.length > 0 then " OFFSET " ++ d.Offset else "") ++
            deleteTailText d)).2)) ∧
    ({ d with Offset := fmt.Sprintf_d m } : deleteData).ToSql =
      d.PlaceholderFormat.map (fun f =>
        ((f.ReplacePlaceholders (deleteHeadText d ++
            (if d.Limit.length > 0 then " LIMIT " ++ d.Limit else "") ++
            (" OFFSET " ++ fmt.Sprintf_d m) ++ deleteTailText d)).1,
          deleteArgList d,
          (f.ReplacePlaceholders (deleteHeadText d ++
            (if d.Limit.length > 0 then " LIMIT " ++ d.Limit else "") ++
            (" OFFSET " ++ fmt.Sprintf_d m) ++ deleteTailText d)).2)) ∧
    ({ d with Limit := "", Offset := fmt.Sprintf_d m } : deleteData).ToSql =
      d.PlaceholderFormat.map (fun f =>
        ((f.ReplacePlaceholders (deleteHeadText d ++ (" OFFSET " ++ fmt.Sprintf_d m) ++
            deleteTailText d)).1,
          deleteArgList d,
          (f.ReplacePlaceholders (deleteHeadText d ++ (" OFFSET " ++ fmt.Sprintf_d m) ++
            deleteTailText d)).2)) ∧
    ({ d with Limit := "" } : deleteData).ToSql =
      d.PlaceholderFormat.map (fun f =>
        ((f.ReplacePlaceholders (deleteHeadText d ++
            (if d.Offset.length > 0 then " OFFSET " ++ d.Offset else "") ++
            deleteTailText d)).1,
          deleteArgList d,
          (f.ReplacePlaceholders (deleteHeadText d ++
            (if d.Offset.length > 0 then " OFFSET " ++ d.Offset else "") ++
            deleteTailText d)).2)) ∧
    ({ d with Offset := "" } : deleteData).ToSql =
      d.PlaceholderFormat.map (fun f =>
        ((f.ReplacePlaceholders (deleteHeadText d ++
            (if d.Limit.length > 0 then " LIMIT " ++ d.Limit else "") ++
            deleteTailText d)).1,
          deleteArgList d,
          (f.ReplacePlaceholders (deleteHeadText d ++
            (if d.Limit.length > 0 then " LIMIT " ++ d.Limit else "") ++
            deleteTailText d)).2)) ∧
    ((∀ x ∈ ms, x.isLimit = false) → σ b = DeleteBuilder.zero →
      (recordAfter (Mutation.chain ms b σ) b).Limit = "") ∧
    ((∀ x ∈ ms, x.isOffset = false) → σ b = DeleteBuilder.zero →
      (recordAfter (Mutation.chain ms b σ) b).Offset = "") ∧
    renderChain [Mutation.PlaceholderFormat (some Question), Mutation.From "users",
        Mutation.Limit 0] = some (some ("DELETE FROM users LIMIT 0", [], none)) ∧
    renderChain [Mutation.PlaceholderFormat (some Question), Mutation.From "users",
        Mutation.Offset 0] = some (some ("DELETE FROM users OFFSET 0", [], none)) := by
  have hn := Sprintf_d_digits n
  have hm := Sprintf_d_digits m
  have hnpos : 0 < (fmt.Sprintf_d n).length := hn.2.1
  have hmpos : 0 < (fmt.Sprintf_d m).length := hm.2.1
  have h0 : ¬ 0 < "".length := by decide
  refine ⟨⟨hn.1, hn.2.2⟩, ?_, ?_, ?_, ?_, ?_, ?_, ?_, ?_, ?_, by decide, by decide⟩
  · exact congrArg deleteData.Limit (recordAfter_call (Mutation.Limit n) b σ)
  · exact congrArg deleteData.Offset (recordAfter_call (Mutation.Offset m) b σ)
  · rw [ToSql_of_parts_ok ({ d with Limit := fmt.Sprintf_d n }) hFrom hok,
      deleteClauseText_parts]
    simp only [gt_iff_lt, if_pos hnpos]
    rfl
  · rw [ToSql_of_parts_ok ({ d with Offset := fmt.Sprintf_d m }) hFrom hok,
      deleteClauseText_parts]
    simp only [gt_iff_lt, if_pos hmpos]
    rfl
  · rw [ToSql_of_parts_ok ({ d with Limit := "", Offset := fmt.Sprintf_d m }) hFrom hok,
      deleteClauseText_parts]
    simp only [gt_iff_lt, if_pos hmpos, if_neg h0, String.append_empty]
    rfl
  · rw [ToSql_of_parts_ok ({ d with Limit := "" }) hFrom hok, deleteClauseText_parts]
    simp only [gt_iff_lt, if_neg h0, String.append_empty]
    rfl
  · rw [ToSql_of_parts_ok ({ d with Offset := "" }) hFrom hok, deleteClauseText_parts]
    simp only [gt_iff_lt, if_neg h0, String.append_empty]
    rfl
  · intro hms hz
    rw [recordAfter_chain, hz]
    exact (foldl_keeps_limit ms DeleteBuilder.zero).1 hms
  · intro hms hz
    rw [recordAfter_chain, hz]
    exact (foldl_keeps_limit ms DeleteBuilder.zero).2 hms

/-- Witness of C17 on a record with a predicate, an order and a suffix: the largest
unsigned 64-bit limit is rendered after the ORDER BY clause and before the suffix. -/
theorem DeleteBuilder_limit_offset_witness :
    ({ sampleNoLimit with Limit := fmt.Sprintf_d (2 ^ 64 - 1) } : deleteData).ToSql = some
      ("DELETE FROM users WHERE id > ? ORDER BY id LIMIT 18446744073709551615 RETURNING id",
        [Value.int 5], none) ∧
    sampleNoLimit.ToSql = some
      ("DELETE FROM users WHERE id > ? ORDER BY id RETURNING id", [Value.int 5], none) :=
  ⟨((DeleteBuilder_limit_offset sampleNoLimit (2 ^ 64 - 1) 0 0 Store.zero [] (by decide)
      (by decide)).2.2.2.1).trans (by decide),
    by decide⟩

/-- C18, the code at the failing input: on the zero record with only the table set the
placeholder format is nil and `deleteData.ToSql` does not return, it panics at the call
`d.PlaceholderFormat.ReplacePlaceholders`; so does every builder made from the empty
builder by `From` alone. The renderer panics exactly on the records with a table, no
failing WHERE part and a nil format, and returns a triple on every other record. -/
theorem deleteData_ToSql_nil_format_panics (d : deleteData) :
    sampleNilFormat.ToSql = none ∧
    renderChain [Mutation.From "t"] = some none ∧
    (d.ToSql = none ↔
      (d.From ≠ "" ∧ (∀ q ∈ d.WhereParts, q.ToSql.2.2 = none) ∧ d.PlaceholderFormat = none)) := by
  refine ⟨by decide, by decide, ?_⟩
  constructor
  · intro h
    have hFrom : d.From ≠ "" := by
      intro h0
      have hlen : d.From.length = 0 := (length_eq_zero_iff _).mpr h0
      unfold deleteData.ToSql at h
      rw [if_pos hlen] at h
      simp at h
    have hok : ∀ q ∈ d.WhereParts, q.ToSql.2.2 = none := by
      by_contra hbad
      obtain ⟨e, _, he⟩ := ToSql_of_part_err d hFrom hbad
      rw [he] at h
      simp at h
    refine ⟨hFrom, hok, ?_⟩
    rw [ToSql_of_parts_ok d hFrom hok] at h
    cases hf : d.PlaceholderFormat with
    | none => rfl
    | some f => simp [hf] at h
  · rintro ⟨hFrom, hok, hf⟩
    rw [ToSql_of_parts_ok d hFrom hok, hf]
    rfl

end squirrel
